import Mathlib

/-!
# Verification of the splicer preview orchestrator (splicer-webcontainer)

A shallow embedding, in Lean 4, of the parts of the
`splicer-webcontainer` service that the specification's claims are about:
the port allocator and dev-server flag injection
(`src/services/process_manager.py`), the record-store gateway
(`src/db/client.py`), subdomain extraction (`src/config.py`), the
workspace path mapping (`src/services/workspace_manager.py`), the HTML
rewriter (`src/services/proxy.py`), the preview route
(`src/api/routes/preview.py`), the session setup task
(`src/services/session_manager.py`) and the repo fetcher
(`src/services/github_client.py`).

Python strings are embedded as `List Char` where proofs need structure
and as `String` where only equality matters; machine integers do not
overflow in any of the modelled code paths, so ports and timestamps are
`Nat`.  Fallible code returns `Option`/`Except`; stateful code is
explicit state passing.
-/

namespace Splicer

/-! ## Data model (src/db/models.py) -/

/-- `SessionStatus` from `src/db/models.py`. -/
inductive SessionStatus where
  | pending
  | cloning
  | installing
  | starting
  | ready
  | failed
  | stopped
deriving DecidableEq, Repr

open SessionStatus

/-- `SessionInDB` from `src/db/models.py`.  Timestamps are `Nat`
(UTC instants in any fixed unit); textual fields are `String`. -/
structure SessionRec where
  id : String
  created_at : Nat
  updated_at : Nat
  last_activity_at : Nat
  expires_at : Nat
  deleted_at : Option Nat := none
  repo_owner : String
  repo_name : String
  repo_ref : String
  status : SessionStatus
  error_message : Option String := none
  internal_port : Option Nat := none
  container_instance : Option String := none
  access_token : String
deriving DecidableEq, Repr

/-- `SessionInDB.is_active` from `src/db/models.py`: member of the five
non-terminal statuses. -/
def SessionRec.isActive (r : SessionRec) : Bool :=
  r.status = pending || r.status = cloning || r.status = installing ||
    r.status = starting || r.status = ready

/-- `SessionInDB.is_expired` from `src/db/models.py`:
`datetime.now() > expires_at`, with the current instant passed
explicitly. -/
def SessionRec.isExpired (r : SessionRec) (now : Nat) : Bool :=
  now > r.expires_at

/-! ## Port allocator (src/services/process_manager.py, PortAllocator)

The allocator's state is the set of tracked allocations
(`self._allocated`); ports observed as LISTEN on the host
(`_is_port_in_use`) are a read-only environment, passed as `busy`.
`allocate` walks `range(self._start, self._end + 1)` — the Python
docstring says "End of port range (inclusive)" — and takes the first
port that is neither tracked nor busy. -/

/-- Guard of the allocation scan:
`port not in self._allocated and not self._is_port_in_use(port)`. -/
def portFree (allocated : Finset Nat) (busy : Nat → Bool) (p : Nat) : Bool :=
  decide (p ∉ allocated) && !(busy p)

/-- `PortAllocator.allocate`: returns the allocated port (or `none`)
together with the new tracked-allocation set.  The scan is
`for port in range(start, end + 1)`. -/
def allocatePort (start endP : Nat) (busy : Nat → Bool) (allocated : Finset Nat) :
    Option Nat × Finset Nat :=
  match (List.range' start (endP + 1 - start)).find? (portFree allocated busy) with
  | some p => (some p, insert p allocated)
  | none => (none, allocated)

/-- `PortAllocator.release`: `self._allocated.discard(port)`. -/
def releasePort (allocated : Finset Nat) (port : Nat) : Finset Nat :=
  allocated.erase port

/-! ## Claim C4 — port allocator -/

/-- C4 (counterexample).  The claim places every allocated port in the
half-open range `[start, end)`, but the Python scan is
`range(start, end + 1)`, inclusive at the right end: with
`start = 3000`, `end = 3001` (a configuration the settings validator
accepts, since `end > start`) and port 3000 already tracked, `allocate`
returns 3001, which does not lie in `[3000, 3001)`. -/
theorem allocatePort_returns_range_end :
    (allocatePort 3000 3001 (fun _ => false) {3000}).1 = some 3001 ∧
      ¬ (3001 < 3001) := by
  constructor
  · decide
  · omega

/-- C4 (amended).  Every port returned by `allocate` lies in the closed
range `[start, end]` and is distinct from every port currently tracked
(and not observed busy); the new state adds exactly that port;
allocation fails precisely when every port of `[start, end]` is tracked
or busy; and `release` of an already-released port is a no-op (both
because `erase` is idempotent and because erasing a non-member changes
nothing). -/
theorem allocatePort_spec (start endP : Nat) (busy : Nat → Bool)
    (allocated : Finset Nat) :
    (∀ p s', allocatePort start endP busy allocated = (some p, s') →
      (start ≤ p ∧ p ≤ endP) ∧ p ∉ allocated ∧ busy p = false ∧
        s' = insert p allocated) ∧
    ((allocatePort start endP busy allocated).1 = none ↔
      ∀ q, start ≤ q → q ≤ endP → q ∈ allocated ∨ busy q = true) ∧
    (∀ port, releasePort (releasePort allocated port) port =
      releasePort allocated port) ∧
    (∀ port, port ∉ allocated → releasePort allocated port = allocated) := by
  refine ⟨?_, ?_, fun port => Finset.erase_idem,
    fun port hport => Finset.erase_eq_of_not_mem hport⟩
  · intro p s' h
    unfold allocatePort at h
    rcases hfind : (List.range' start (endP + 1 - start)).find?
        (portFree allocated busy) with _ | q
    all_goals rw [hfind] at h
    · simp at h
    · rw [Prod.mk.injEq] at h
      obtain ⟨h1, h2⟩ := h
      obtain rfl : p = q := (Option.some.inj h1).symm
      have hmem := List.mem_of_find?_eq_some hfind
      have hpred := List.find?_some hfind
      have hrange : start ≤ p ∧ p < start + (endP + 1 - start) := by
        simpa [List.mem_range'_1] using hmem
      unfold portFree at hpred
      simp only [Bool.and_eq_true, Bool.not_eq_true', decide_eq_true_eq] at hpred
      exact ⟨⟨hrange.1, by omega⟩, hpred.1, hpred.2, h2.symm⟩
  · unfold allocatePort
    rcases hfind : (List.range' start (endP + 1 - start)).find?
        (portFree allocated busy) with _ | q
    · simp only [true_iff]
      intro q hq1 hq2
      have hq := List.find?_eq_none.mp hfind q
        (by simp only [List.mem_range'_1]; omega)
      unfold portFree at hq
      simp only [Bool.and_eq_true, Bool.not_eq_true', decide_eq_true_eq,
        not_and] at hq
      by_cases hmem : q ∈ allocated
      · exact Or.inl hmem
      · exact Or.inr (by simpa using hq hmem)
    · constructor
      · intro h
        exact absurd h (by simp)
      · intro h
        exfalso
        have hmem := List.mem_of_find?_eq_some hfind
        have hpred := List.find?_some hfind
        have hrange : start ≤ q ∧ q < start + (endP + 1 - start) := by
          simpa [List.mem_range'_1] using hmem
        unfold portFree at hpred
        simp only [Bool.and_eq_true, Bool.not_eq_true', decide_eq_true_eq] at hpred
        rcases h q hrange.1 (by omega) with hmem' | hbusy
        · exact hpred.1 hmem'
        · rw [hbusy] at hpred
          exact absurd hpred.2 (by simp)

/-- C4 (witness).  The amended allocator theorem instantiated at
`start = 3000`, `end = 3005`, nothing busy, nothing tracked:
allocation returns 3000. -/
theorem allocatePort_spec_witness :
    (3000 ≤ 3000 ∧ 3000 ≤ 3005) ∧ 3000 ∉ (∅ : Finset Nat) ∧
      (fun _ : Nat => false) 3000 = false ∧
      ({3000} : Finset Nat) = insert 3000 ∅ :=
  (allocatePort_spec 3000 3005 (fun _ => false) ∅).1 3000 {3000} (by decide)

/-! ## Workspace path mapping (src/services/workspace_manager.py)

Paths are modelled as `pathlib` parses them: a root flag plus a list of
non-empty components.  `Path.__truediv__` with a relative operand
appends the operand's components (splitting on `/` and dropping empty
segments, so joining with the empty string is the identity); with an
absolute operand it replaces the whole path. -/

/-- Embedded `pathlib.Path`: `root` is whether the path is absolute,
`comps` its non-empty components. -/
structure PyPath where
  root : Bool
  comps : List String
deriving DecidableEq, Repr

/-- Python `str.split("/")` over the character list (`"".split("/")`
is `[""]`, separators at the ends produce empty fields). -/
def splitSlash : List Char → List Char → List String
  | [], acc => [String.mk acc.reverse]
  | '/' :: cs, acc => String.mk acc.reverse :: splitSlash cs []
  | c :: cs, acc => splitSlash cs (c :: acc)

/-- `Path.__truediv__ (p / s)` as `pathlib` implements it: split `s` on
the separator, drop empty segments; an absolute operand replaces `p`. -/
def pathDiv (p : PyPath) (s : String) : PyPath :=
  let comps := (splitSlash s.data []).filter (fun c => c ≠ "")
  if s.data.head? = some '/' then ⟨true, comps⟩
  else ⟨p.root, p.comps ++ comps⟩

/-- Character predicate of `_get_workspace_path`:
`c.isalnum() or c in "-_"` (alphanumerics restricted to ASCII; the
claims only exercise ASCII ids and the empty string). -/
def isValidSessionChar (c : Char) : Bool :=
  c.isAlphanum || c = '-' || c = '_'

/-- `WorkspaceManager._get_workspace_path`: keep only the valid
characters of `session_id`; reject when anything was dropped; join the
survivor onto the base directory. -/
def getWorkspacePath (baseDir : PyPath) (sessionId : String) :
    Except String PyPath :=
  let safeId := String.mk (sessionId.data.filter isValidSessionChar)
  if safeId ≠ sessionId then .error "Invalid session ID"
  else .ok (pathDiv baseDir safeId)

/-- `p` is `q` itself or an ancestor of `q`. -/
def pathWithin (p q : PyPath) : Bool :=
  p.root = q.root && p.comps.isPrefixOf q.comps

/-- `shutil.rmtree`: the path and everything below it disappear from
the filesystem (modelled as the list of existing paths). -/
def rmtree (p : PyPath) (fs : List PyPath) : List PyPath :=
  fs.filter (fun q => ¬ pathWithin p q)

/-- `WorkspaceManager.cleanup_workspace`: resolve the workspace path
(propagating the `ValueError` of `_get_workspace_path`), return `false`
when it does not exist, else remove the tree recursively. -/
def cleanupWorkspace (baseDir : PyPath) (sessionId : String)
    (fs : List PyPath) : Except String (Bool × List PyPath) :=
  match getWorkspacePath baseDir sessionId with
  | .error e => .error e
  | .ok wp =>
    if fs.contains wp then .ok (true, rmtree wp fs)
    else .ok (false, fs)

/-! ## Claim C10 — empty session id maps to the base directory -/

/-- C10.  The empty session id survives the character validation
vacuously and `_get_workspace_path` maps it to the base directory
itself, so `cleanup_workspace("")` deletes the base directory tree:
afterwards no path at or below the base directory — in particular no
session's workspace — exists. -/
theorem cleanup_empty_id_deletes_base (baseDir : PyPath) (fs : List PyPath)
    (hbase : fs.contains baseDir = true) :
    getWorkspacePath baseDir "" = .ok baseDir ∧
      cleanupWorkspace baseDir "" fs =
        .ok (true, fs.filter (fun q => ¬ pathWithin baseDir q)) ∧
      ∀ q, pathWithin baseDir q = true →
        q ∉ fs.filter (fun q' => ¬ pathWithin baseDir q') := by
  have hdiv : pathDiv baseDir "" = baseDir := by
    unfold pathDiv
    rw [if_neg (by simp)]
    have h : (splitSlash "".data []).filter (fun c => c ≠ "") = [] := rfl
    rw [h, List.append_nil]
  have hpath : getWorkspacePath baseDir "" = .ok baseDir := by
    unfold getWorkspacePath
    rw [if_neg (by decide)]
    refine congrArg Except.ok ?_
    have h : String.mk (List.filter isValidSessionChar "".data) = "" := by decide
    rw [h, hdiv]
  refine ⟨hpath, ?_, ?_⟩
  · unfold cleanupWorkspace
    rw [hpath]
    simp only [hbase, if_true]
    rfl
  · intro q hq hmem
    have := List.of_mem_filter hmem
    simp [hq] at this

/-- C10 (witness).  With base `/tmp/workspaces` present in a filesystem
that also holds the workspace of session `abc`, cleanup with the empty
id removes both. -/
theorem cleanup_empty_id_deletes_base_witness :
    getWorkspacePath ⟨true, ["tmp", "workspaces"]⟩ "" =
        .ok ⟨true, ["tmp", "workspaces"]⟩ ∧
      cleanupWorkspace ⟨true, ["tmp", "workspaces"]⟩ ""
          [⟨true, ["tmp", "workspaces"]⟩, ⟨true, ["tmp", "workspaces", "abc"]⟩] =
        .ok (true, [⟨true, ["tmp", "workspaces"]⟩,
          ⟨true, ["tmp", "workspaces", "abc"]⟩].filter
            (fun q => ¬ pathWithin ⟨true, ["tmp", "workspaces"]⟩ q)) ∧
      ∀ q, pathWithin ⟨true, ["tmp", "workspaces"]⟩ q = true →
        q ∉ [⟨true, ["tmp", "workspaces"]⟩,
          ⟨true, ["tmp", "workspaces", "abc"]⟩].filter
            (fun q' => ¬ pathWithin ⟨true, ["tmp", "workspaces"]⟩ q') :=
  cleanup_empty_id_deletes_base ⟨true, ["tmp", "workspaces"]⟩
    [⟨true, ["tmp", "workspaces"]⟩, ⟨true, ["tmp", "workspaces", "abc"]⟩]
    (by decide)

/-! ## Dev-server flag injection
(src/services/process_manager.py, ProcessManager._inject_server_flags) -/

/-- Python `needle in hay` on strings: `needle` occurs contiguously in
`hay`. -/
def strContains (needle : List Char) : List Char → Bool
  | [] => needle.isEmpty
  | c :: t => needle.isPrefixOf (c :: t) || strContains needle t

/-- `any("react-scripts" in arg for arg in modified)`: substring
containment in any argv token. -/
def mentionsReactScripts (command : List String) : Bool :=
  command.any (fun arg => strContains ("react-scripts".data) arg.data)

/-- `any(flag in modified for flag in ["--port", "-p", "-P"])`. -/
def hasPortFlag (command : List String) : Bool :=
  ["--port", "-p", "-P"].any (fun f => command.contains f)

/-- `any(flag in modified for flag in ["--host", "-H", "--hostname"])`. -/
def hasHostFlag (command : List String) : Bool :=
  ["--host", "-H", "--hostname"].any (fun f => command.contains f)

/-- `len(modified) >= 3 and modified[0] == "npm" and modified[1] == "run"`. -/
def isNpmRun (command : List String) : Bool :=
  match command with
  | "npm" :: "run" :: _ :: _ => true
  | _ => false

/-- `len(modified) >= 2 and modified[0] == "npm" and modified[1] == "start"`. -/
def isNpmStart (command : List String) : Bool :=
  match command with
  | "npm" :: "start" :: _ => true
  | _ => false

/-- `len(modified) >= 2 and modified[0] == "yarn"`. -/
def isYarnCmd (command : List String) : Bool :=
  match command with
  | "yarn" :: _ :: _ => true
  | _ => false

/-- `len(modified) >= 2 and modified[0] == "pnpm"`. -/
def isPnpmCmd (command : List String) : Bool :=
  match command with
  | "pnpm" :: _ :: _ => true
  | _ => false

/-- `ProcessManager._inject_server_flags`.  `session_id` and
`framework` are accepted (as in the source signature) but unused by the
body. -/
def injectServerFlags (command : List String) (port : Nat)
    (sessionId : String) (framework : Option String) : List String :=
  if command.isEmpty then command
  else
    let modified := command
    if mentionsReactScripts modified then modified
    else
      let flagsToAdd :=
        (if !hasPortFlag modified then ["--port", toString port] else []) ++
          (if !hasHostFlag modified then ["--host"] else [])
      if flagsToAdd.isEmpty then modified
      else if isNpmRun modified || isNpmStart modified then
        (if modified.contains "--" then modified else modified ++ ["--"]) ++
          flagsToAdd
      else if isYarnCmd modified || isPnpmCmd modified then modified ++ flagsToAdd
      else modified ++ flagsToAdd

/-! ## Claim C7 — per-toolchain flag injection -/

/-- C7.  Flag injection as claimed: `--port <n>` is appended unless a
port flag is present and `--host` unless a host flag is present; `npm
run`/`npm start` commands get the `--` separator before the injected
flags; `yarn` and `pnpm` commands get the flags appended directly; a
command mentioning `react-scripts` is returned unchanged; and a command
already carrying both a port and a host flag is returned unchanged. -/
theorem injectServerFlags_spec (port : Nat) (sid : String)
    (fw : Option String) :
    (∀ command, mentionsReactScripts command = true →
      injectServerFlags command port sid fw = command) ∧
    (∀ s rest, mentionsReactScripts ("npm" :: "run" :: s :: rest) = false →
      hasPortFlag ("npm" :: "run" :: s :: rest) = false →
      hasHostFlag ("npm" :: "run" :: s :: rest) = false →
      ("npm" :: "run" :: s :: rest).contains "--" = false →
      injectServerFlags ("npm" :: "run" :: s :: rest) port sid fw =
        "npm" :: "run" :: s :: rest ++ ["--", "--port", toString port, "--host"]) ∧
    (∀ rest, mentionsReactScripts ("npm" :: "start" :: rest) = false →
      hasPortFlag ("npm" :: "start" :: rest) = false →
      hasHostFlag ("npm" :: "start" :: rest) = false →
      ("npm" :: "start" :: rest).contains "--" = false →
      injectServerFlags ("npm" :: "start" :: rest) port sid fw =
        "npm" :: "start" :: rest ++ ["--", "--port", toString port, "--host"]) ∧
    (∀ x rest, mentionsReactScripts ("yarn" :: x :: rest) = false →
      hasPortFlag ("yarn" :: x :: rest) = false →
      hasHostFlag ("yarn" :: x :: rest) = false →
      injectServerFlags ("yarn" :: x :: rest) port sid fw =
        "yarn" :: x :: rest ++ ["--port", toString port, "--host"]) ∧
    (∀ x rest, mentionsReactScripts ("pnpm" :: x :: rest) = false →
      hasPortFlag ("pnpm" :: x :: rest) = false →
      hasHostFlag ("pnpm" :: x :: rest) = false →
      injectServerFlags ("pnpm" :: x :: rest) port sid fw =
        "pnpm" :: x :: rest ++ ["--port", toString port, "--host"]) ∧
    (∀ command, mentionsReactScripts command = false →
      hasPortFlag command = true → hasHostFlag command = true →
      injectServerFlags command port sid fw = command) := by
  refine ⟨?_, ?_, ?_, ?_, ?_, ?_⟩
  · intro command hreact
    unfold injectServerFlags
    by_cases hemp : command.isEmpty
    · rw [if_pos hemp]
    · rw [if_neg hemp, if_pos hreact]
  · intro s rest hreact hport hhost hsep
    unfold injectServerFlags
    rw [if_neg (by simp), if_neg (by simp [hreact]), hport, hhost]
    rw [if_neg (by simp)]
    rw [if_pos (by simp [isNpmRun])]
    rw [if_neg (by rw [hsep]; simp)]
    simp
  · intro rest hreact hport hhost hsep
    unfold injectServerFlags
    rw [if_neg (by simp), if_neg (by simp [hreact]), hport, hhost]
    rw [if_neg (by simp)]
    rw [if_pos (by simp [isNpmStart])]
    rw [if_neg (by rw [hsep]; simp)]
    simp
  · intro x rest hreact hport hhost
    unfold injectServerFlags
    rw [if_neg (by simp), if_neg (by simp [hreact]), hport, hhost]
    rw [if_neg (by simp)]
    rw [if_neg (by simp [isNpmRun, isNpmStart])]
    rw [if_pos (by simp [isYarnCmd])]
    simp
  · intro x rest hreact hport hhost
    unfold injectServerFlags
    rw [if_neg (by simp), if_neg (by simp [hreact]), hport, hhost]
    rw [if_neg (by simp)]
    rw [if_neg (by simp [isNpmRun, isNpmStart])]
    rw [if_pos (by simp [isYarnCmd, isPnpmCmd])]
    simp
  · intro command hreact hport hhost
    unfold injectServerFlags
    by_cases hemp : command.isEmpty
    · rw [if_pos hemp]
    · rw [if_neg hemp, if_neg (by simp [hreact]), hport, hhost]
      rw [if_pos (by simp)]

/-- C7 (witness).  The flag-injection theorem instantiated on the
concrete commands `["npx", "react-scripts", "start"]` (unchanged),
`["npm", "run", "dev"]` (separator plus flags), and
`["yarn", "dev"]` (flags only), at port 3000. -/
theorem injectServerFlags_spec_witness :
    injectServerFlags ["npx", "react-scripts", "start"] 3000 "s1" none =
        ["npx", "react-scripts", "start"] ∧
      injectServerFlags ["npm", "run", "dev"] 3000 "s1" none =
        ["npm", "run", "dev", "--", "--port", "3000", "--host"] ∧
      injectServerFlags ["yarn", "dev"] 3000 "s1" none =
        ["yarn", "dev", "--port", "3000", "--host"] :=
  ⟨(injectServerFlags_spec 3000 "s1" none).1 _ (by decide),
    by
      have h := (injectServerFlags_spec 3000 "s1" none).2.1 "dev" []
        (by decide) (by decide) (by decide) (by decide)
      simpa using h,
    by
      have h := (injectServerFlags_spec 3000 "s1" none).2.2.2.1 "dev" []
        (by decide) (by decide) (by decide)
      simpa using h⟩

/-! ## Record-store gateway (src/db/client.py)

The shared `preview_sessions` table is a list of records; every query
filter of the Supabase builder becomes a predicate.  Row order models
insertion order; `order("created_at", desc=True).limit(1)` selects a
row of maximal `created_at`. -/

/-- Statuses the reuse lookup and `list_active_sessions` treat as
active: `.in_("status", [PENDING, CLONING, INSTALLING, STARTING,
READY])`. -/
def activeStatuses : List SessionStatus :=
  [pending, cloning, installing, starting, ready]

/-- Row filter of `find_active_session_for_repo`: the three `.eq` on
the repo triple, `.is_("deleted_at", "null")`, the active-status
`.in_`, and the optional `.eq("container_instance", instance_id)`. -/
def matchesRepoQuery (owner name ref : String) (instanceId : Option String)
    (r : SessionRec) : Bool :=
  r.repo_owner = owner && r.repo_name = name && r.repo_ref = ref &&
    r.deleted_at = none && r.status ∈ activeStatuses &&
    (match instanceId with
      | none => true
      | some i => r.container_instance = some i)

/-- Fold step selecting a row of maximal `created_at` (the effect of
`order("created_at", desc=True).limit(1)`; ties keep the earlier row). -/
def maxCreatedStep : Option SessionRec → SessionRec → Option SessionRec
  | none, r => some r
  | some m, r => if r.created_at > m.created_at then some r else some m

/-- Most-recent row (by `created_at`) of a result set. -/
def mostRecentFirst (l : List SessionRec) : Option SessionRec :=
  l.foldl maxCreatedStep none

/-- `SupabaseClient.find_active_session_for_repo`: filter, order by
`created_at` descending, `limit(1)`; afterwards the selected row — and
only that row — is discarded when `is_expired`. -/
def findActiveSessionForRepo (store : List SessionRec)
    (owner name ref : String) (instanceId : Option String) (now : Nat) :
    Option SessionRec :=
  (mostRecentFirst (store.filter (matchesRepoQuery owner name ref instanceId))).bind
    (fun s => if s.isExpired now then none else some s)

/-- Unfolded characterisation of the max-selecting fold. -/
theorem mostRecentFirst_aux (l : List SessionRec) :
    ∀ (acc : Option SessionRec) (r : SessionRec),
      l.foldl maxCreatedStep acc = some r →
      (acc = some r ∨ r ∈ l) ∧
        (∀ m, acc = some m → m.created_at ≤ r.created_at) ∧
        (∀ x ∈ l, x.created_at ≤ r.created_at) := by
  induction l with
  | nil =>
    intro acc r h
    simp only [List.foldl_nil] at h
    subst h
    refine ⟨Or.inl rfl, ?_, ?_⟩
    · intro m hm
      injection hm with hm'
      rw [hm']
    · intro x hx
      cases hx
  | cons a t ih =>
    intro acc r h
    rw [List.foldl_cons] at h
    obtain ⟨h1, h2, h3⟩ := ih _ r h
    have hstep : ∀ (acc' : Option SessionRec) m, maxCreatedStep acc' a = some m →
        a.created_at ≤ m.created_at ∧ (m = a ∨ acc' = some m) := by
      intro acc' m hm
      match acc' with
      | none =>
        simp only [maxCreatedStep] at hm
        injection hm with hm'
        subst hm'
        exact ⟨le_refl _, Or.inl rfl⟩
      | some m0 =>
        simp only [maxCreatedStep] at hm
        by_cases hgt : a.created_at > m0.created_at
        · rw [if_pos hgt] at hm
          injection hm with hm'
          subst hm'
          exact ⟨le_refl _, Or.inl rfl⟩
        · rw [if_neg hgt] at hm
          injection hm with hm'
          subst hm'
          exact ⟨by omega, Or.inr rfl⟩
    have hsome : ∃ m, maxCreatedStep acc a = some m := by
      match acc with
      | none => exact ⟨a, rfl⟩
      | some m0 =>
        simp only [maxCreatedStep]
        by_cases hgt : a.created_at > m0.created_at
        · exact ⟨a, if_pos hgt⟩
        · exact ⟨m0, if_neg hgt⟩
    obtain ⟨mm, hmm⟩ := hsome
    have hmmr : mm.created_at ≤ r.created_at := h2 mm hmm
    obtain ⟨hma, _⟩ := hstep acc mm hmm
    refine ⟨?_, ?_, ?_⟩
    · rcases h1 with h1 | h1
      · rcases (hstep acc r h1).2 with hra | hacc
        · subst hra
          exact Or.inr (List.mem_cons_self _ _)
        · exact Or.inl hacc
      · exact Or.inr (List.mem_cons_of_mem _ h1)
    · intro m hm
      subst hm
      simp only [maxCreatedStep] at hmm
      by_cases hgt : a.created_at > m.created_at
      · rw [if_pos hgt] at hmm
        injection hmm with hm'
        subst hm'
        omega
      · rw [if_neg hgt] at hmm
        injection hmm with hm'
        subst hm'
        exact hmmr
    · intro x hx
      rcases List.mem_cons.mp hx with rfl | hx
      · omega
      · exact h3 x hx

/-! ## Claim C3 — reuse lookup -/

/-- Concrete record: the newer match, already expired at `now = 50`. -/
def recNewerExpired : SessionRec :=
  { id := "s1", created_at := 10, updated_at := 10, last_activity_at := 10,
    expires_at := 5, repo_owner := "alice", repo_name := "app",
    repo_ref := "main", status := ready, internal_port := some 3000,
    container_instance := some "inst-a", access_token := "spl_tok1" }

/-- Concrete record: an older match, still valid at `now = 50`. -/
def recOlderValid : SessionRec :=
  { id := "s2", created_at := 1, updated_at := 1, last_activity_at := 1,
    expires_at := 100, repo_owner := "alice", repo_name := "app",
    repo_ref := "main", status := ready, internal_port := some 3001,
    container_instance := some "inst-b", access_token := "spl_tok2" }

/-- C3 (counterexample).  The expiry check runs only after
`order(desc).limit(1)`: with a store holding an expired newer match and
a non-expired older match, the lookup returns `none` although a
non-expired active matching record exists — refuting the claim's "the
lookup returns one such record rather than none". -/
theorem findActive_misses_older_valid :
    findActiveSessionForRepo [recNewerExpired, recOlderValid]
        "alice" "app" "main" none 50 = none ∧
      recOlderValid ∈ [recNewerExpired, recOlderValid] ∧
      matchesRepoQuery "alice" "app" "main" none recOlderValid = true ∧
      recOlderValid.isExpired 50 = false := by
  refine ⟨by decide, by simp, by decide, by decide⟩

/-- C3 (amended).  The lookup returns the single most recent active
matching record when that record is non-expired; any record it returns
is a member of the store, matches the triple (active, not deleted,
instance-filtered), is non-expired, and has `created_at` maximal among
all matching records.  When the most recent matching record is expired
the lookup returns none even if older non-expired matches exist. -/
theorem findActive_spec (store : List SessionRec) (owner name ref : String)
    (instanceId : Option String) (now : Nat) :
    (∀ r, findActiveSessionForRepo store owner name ref instanceId now = some r →
      r ∈ store ∧ matchesRepoQuery owner name ref instanceId r = true ∧
        r.isExpired now = false ∧
        ∀ x ∈ store, matchesRepoQuery owner name ref instanceId x = true →
          x.created_at ≤ r.created_at) ∧
    (∀ r, mostRecentFirst
        (store.filter (matchesRepoQuery owner name ref instanceId)) = some r →
      r.isExpired now = false →
      findActiveSessionForRepo store owner name ref instanceId now = some r) := by
  constructor
  · intro r h
    unfold findActiveSessionForRepo at h
    rcases hmr : mostRecentFirst
        (store.filter (matchesRepoQuery owner name ref instanceId)) with _ | s
    · rw [hmr] at h
      cases h
    · rw [hmr, Option.some_bind] at h
      by_cases hexp : s.isExpired now = true
      · rw [if_pos hexp] at h
        cases h
      · rw [if_neg hexp] at h
        injection h with h'
        subst h'
        obtain ⟨h1, _, h3⟩ := mostRecentFirst_aux _ none s hmr
        have hmem : s ∈ store.filter (matchesRepoQuery owner name ref instanceId) := by
          rcases h1 with h1 | h1
          · cases h1
          · exact h1
        refine ⟨List.mem_of_mem_filter hmem, List.of_mem_filter hmem,
          by simpa using hexp, ?_⟩
        intro x hx hxm
        exact h3 x (List.mem_filter.mpr ⟨hx, hxm⟩)
  · intro r hmr hexp
    unfold findActiveSessionForRepo
    rw [hmr, Option.some_bind, if_neg (by simp [hexp])]

/-- C3 (witness).  The amended lookup theorem instantiated at the
single-record store `[recOlderValid]` at `now = 50`: the lookup returns
that record. -/
theorem findActive_spec_witness :
    findActiveSessionForRepo [recOlderValid] "alice" "app" "main" none 50 =
      some recOlderValid :=
  (findActive_spec [recOlderValid] "alice" "app" "main" none 50).2
    recOlderValid (by decide) (by decide)

/-! ## Claim C5 — startup orphan claim
(src/db/client.py claim_orphaned_sessions,
src/services/session_manager.py recover_on_startup) -/

/-- Statuses `claim_orphaned_sessions` selects:
`[PENDING, CLONING, INSTALLING, STARTING]` — `READY` is not among
them. -/
def orphanStatuses : List SessionStatus :=
  [pending, cloning, installing, starting]

/-- Row filter of `claim_orphaned_sessions`: not soft-deleted, status
in the four in-progress statuses, `updated_at` before the stale
threshold. -/
def isOrphanCandidate (staleThreshold : Nat) (r : SessionRec) : Bool :=
  r.deleted_at = none && r.status ∈ orphanStatuses &&
    r.updated_at < staleThreshold

/-- Error message written for orphans. -/
def orphanErrorMessage : String := "Session orphaned due to instance failure"

/-- `SupabaseClient.claim_orphaned_sessions`: every selected row is
updated (through `update_status`/`update_session`, which also stamps
`updated_at = now`) to `failed` with the orphan error message. -/
def claimOrphanedSessions (store : List SessionRec)
    (staleThreshold now : Nat) : List SessionRec :=
  store.map (fun r =>
    if isOrphanCandidate staleThreshold r then
      { r with
          status := failed
          error_message := some orphanErrorMessage
          updated_at := now }
    else r)

/-- `SessionManager.recover_on_startup`: stale threshold is five
minutes (300 s) before now. -/
def recoverOnStartup (store : List SessionRec) (now : Nat) : List SessionRec :=
  claimOrphanedSessions store (now - 300) now

/-- Concrete record: `ready`, stale `updated_at`, not deleted. -/
def recStaleReady : SessionRec :=
  { id := "s3", created_at := 0, updated_at := 0, last_activity_at := 0,
    expires_at := 1000, repo_owner := "alice", repo_name := "app",
    repo_ref := "main", status := ready, internal_port := some 3000,
    container_instance := some "inst-a", access_token := "spl_tok3" }

/-- C5 (counterexample).  A non-deleted `ready` record whose
`updated_at` is older than the staleness threshold is left untouched by
the startup scan — the status filter omits `READY` — refuting the
claim, which lists `ready` among the statuses marked failed. -/
theorem claimOrphans_skips_ready :
    claimOrphanedSessions [recStaleReady] 100 200 = [recStaleReady] ∧
      recStaleReady.deleted_at = none ∧ recStaleReady.status = ready ∧
      recStaleReady.updated_at < 100 ∧ recStaleReady.status ≠ failed := by
  refine ⟨by decide, by decide, by decide, by decide, by decide⟩

/-- C5 (amended).  At startup every non-deleted record in `pending`,
`cloning`, `installing` or `starting` (`ready` excluded) whose
`updated_at` is older than the staleness threshold is marked `failed`
with the orphaned error message; every other record — in particular
every `ready` record — is unchanged. -/
theorem claimOrphans_spec (store : List SessionRec) (staleThreshold now : Nat) :
    List.Forall₂ (fun r r' =>
      (r.deleted_at = none → r.status ∈ orphanStatuses →
        r.updated_at < staleThreshold →
        r'.status = failed ∧ r'.error_message = some orphanErrorMessage ∧
          r'.id = r.id) ∧
      (isOrphanCandidate staleThreshold r = false → r' = r))
      store (claimOrphanedSessions store staleThreshold now) := by
  unfold claimOrphanedSessions
  induction store with
  | nil => exact List.Forall₂.nil
  | cons a t ih =>
    rw [List.map_cons]
    refine List.Forall₂.cons ⟨?_, ?_⟩ ih
    · intro hdel hstat hupd
      have hcand : isOrphanCandidate staleThreshold a = true := by
        unfold isOrphanCandidate
        simp only [Bool.and_eq_true, decide_eq_true_eq]
        exact ⟨⟨hdel, hstat⟩, hupd⟩
      rw [if_pos hcand]
      exact ⟨rfl, rfl, rfl⟩
    · intro hcand
      rw [hcand]
      simp

/-- C5 (witness).  The amended orphan theorem instantiated at a
two-record store: a stale `cloning` record and a stale `ready` record,
threshold 100, now 200. -/
theorem claimOrphans_spec_witness :
    List.Forall₂ (fun r r' =>
      (r.deleted_at = none → r.status ∈ orphanStatuses →
        r.updated_at < 100 →
        r'.status = failed ∧ r'.error_message = some orphanErrorMessage ∧
          r'.id = r.id) ∧
      (isOrphanCandidate 100 r = false → r' = r))
      [{ recStaleReady with id := "s4", status := cloning }, recStaleReady]
      (claimOrphanedSessions
        [{ recStaleReady with id := "s4", status := cloning }, recStaleReady]
        100 200) :=
  claimOrphans_spec
    [{ recStaleReady with id := "s4", status := cloning }, recStaleReady] 100 200

/-! ## Subdomain extraction (src/config.py,
Settings.extract_session_from_host)

Hosts are lists of characters.  `host.split(":")[0]` is the part
before the first colon, `str.lower` maps `Char.toLower`. -/

/-- `Settings.extract_session_from_host`.  Returns `none` when
subdomain routing is off or no preview domain is configured (Python
truthiness: the empty domain counts as unset); otherwise lowercases the
pre-colon part of the host, requires the `.{preview_domain}` suffix and
a non-empty dot-free label before it. -/
def extractSessionFromHost (useSubdomainRouting : Bool)
    (previewDomain : Option (List Char)) (host : List Char) :
    Option (List Char) :=
  let pd := previewDomain.getD []
  if !useSubdomainRouting || pd.isEmpty then none
  else
    let h := (host.takeWhile (fun c => c ≠ ':')).map Char.toLower
    let expectedSuffix := '.' :: pd.map Char.toLower
    if expectedSuffix.isSuffixOf h then
      let sessionId := h.take (h.length - expectedSuffix.length)
      if sessionId = [] ∨ sessionId.contains '.' then none
      else some sessionId
    else none

/-- Beta-expanded unfolding of `extractSessionFromHost` in the enabled,
non-empty-domain case. -/
theorem extractSessionFromHost_eq (p : Char) (pr host : List Char) :
    extractSessionFromHost true (some (p :: pr)) host =
      ((fun h sfx =>
        if sfx.isSuffixOf h = true then
          if h.take (h.length - sfx.length) = [] ∨
              (h.take (h.length - sfx.length)).contains '.' = true then none
          else some (h.take (h.length - sfx.length))
        else none)
        ((host.takeWhile (fun c => c ≠ ':')).map Char.toLower)
        ('.' :: (p :: pr).map Char.toLower)) := rfl

/-- Spec-side reading of the claim's host shape (for the refutation
only): `host = "<id>." + preview_domain`, optionally followed by `":"`
and a port (a non-empty digit string), with `id` a non-empty dot-free
label. -/
def hostMatchesSpecForm (previewDomain id host : List Char) : Prop :=
  id ≠ [] ∧ ¬ id.contains '.' = true ∧
    (host = id ++ '.' :: previewDomain ∨
      ∃ port : List Char, port ≠ [] ∧ (∀ c ∈ port, c.isDigit = true) ∧
        host = id ++ '.' :: previewDomain ++ ':' :: port)

/-! ## Claim C6 — subdomain extraction iff -/

/-- C6 (counterexample).  The claimed equivalence fails in both
directions of "every other host returns nothing": the matching is
case-insensitive (`ABC.preview.example` extracts `abc` although the
host is not `abc.preview.example` with an optional port), and
everything after the first colon is ignored, port or not
(`abc.preview.example:notaport` also extracts `abc`). -/
theorem extractSession_claim_false :
    (extractSessionFromHost true (some ("preview.example".data))
        ("ABC.preview.example".data) = some ("abc".data) ∧
      ¬ hostMatchesSpecForm ("preview.example".data) ("abc".data)
        ("ABC.preview.example".data)) ∧
    (extractSessionFromHost true (some ("preview.example".data))
        ("abc.preview.example:notaport".data) = some ("abc".data) ∧
      ¬ hostMatchesSpecForm ("preview.example".data) ("abc".data)
        ("abc.preview.example:notaport".data)) := by
  refine ⟨⟨by decide, ?_⟩, ⟨by decide, ?_⟩⟩
  · rintro ⟨-, -, heq | ⟨port, -, -, heq⟩⟩
    · exact absurd heq (by decide)
    · have hhead := congrArg List.head? heq
      simp at hhead
  · rintro ⟨-, -, heq | ⟨port, -, hdig, heq⟩⟩
    · exact absurd heq (by decide)
    · rw [show ("abc.preview.example:notaport".data) =
          ("abc.preview.example:".data) ++ ("notaport".data) from rfl] at heq
      rw [show ("abc".data) ++ '.' :: ("preview.example".data) ++ ':' :: port =
          ("abc.preview.example:".data) ++ port from rfl] at heq
      have hport := List.append_cancel_left heq
      have := hdig 'n' (by rw [← hport]; decide)
      exact absurd this (by decide)

/-- C6 (amended).  With subdomain routing enabled and a non-empty
preview domain, `extract_session_from_host(host) = id` if and only if
lowercasing the part of `host` before the first `:` yields `"<id>."`
followed by the lowercased preview domain, where `id` is a non-empty
label containing no dot; matching is case-insensitive and whatever
follows the first `:` is ignored. -/
theorem extractSession_characterization (pd host id : List Char)
    (hpd : pd ≠ []) :
    extractSessionFromHost true (some pd) host = some id ↔
      ((host.takeWhile (fun c => c ≠ ':')).map Char.toLower =
          id ++ '.' :: pd.map Char.toLower ∧
        id ≠ [] ∧ ¬ id.contains '.' = true) := by
  obtain ⟨p, pr, rfl⟩ : ∃ p pr, pd = p :: pr := by
    cases pd with
    | nil => exact absurd rfl hpd
    | cons p pr => exact ⟨p, pr, rfl⟩
  rw [extractSessionFromHost_eq]
  simp only []
  set h := (host.takeWhile (fun c => c ≠ ':')).map Char.toLower with hh
  set sfx := '.' :: (p :: pr).map Char.toLower with hsfx
  by_cases hsuf : sfx.isSuffixOf h
  · rw [if_pos hsuf]
    obtain ⟨t, ht⟩ := List.isSuffixOf_iff_suffix.mp hsuf
    have htake : h.take (h.length - sfx.length) = t := by
      rw [← ht, List.length_append]
      have hlen : t.length + sfx.length - sfx.length = t.length := by omega
      rw [hlen, List.take_left]
    rw [htake]
    by_cases hguard : t = [] ∨ t.contains '.'
    · rw [if_pos hguard]
      constructor
      · intro hsome
        cases hsome
      · rintro ⟨heq, hne, hnd⟩
        have : t = id := by
          have : t ++ sfx = id ++ sfx := by rw [ht, hsfx, heq]
          exact List.append_cancel_right this
        subst this
        rcases hguard with hguard | hguard
        · exact (hne hguard).elim
        · exact (hnd hguard).elim
    · rw [if_neg hguard]
      push_neg at hguard
      constructor
      · intro hsome
        injection hsome with hsome
        subst hsome
        refine ⟨by rw [← ht, hsfx], hguard.1, ?_⟩
        simpa using hguard.2
      · rintro ⟨heq, -, -⟩
        have : t = id := by
          have : t ++ sfx = id ++ sfx := by rw [ht, hsfx, heq]
          exact List.append_cancel_right this
        rw [this]
  · rw [if_neg hsuf]
    constructor
    · intro hsome
      cases hsome
    · rintro ⟨heq, -, -⟩
      exfalso
      apply hsuf
      rw [List.isSuffixOf_iff_suffix]
      exact ⟨id, by rw [heq]⟩

/-- C6 (witness).  The amended characterisation applied at domain
`preview.example` and host `myapp.preview.example:443`: the extraction
yields `myapp`. -/
theorem extractSession_characterization_witness :
    extractSessionFromHost true (some ("preview.example".data))
      ("myapp.preview.example:443".data) = some ("myapp".data) :=
  (extractSession_characterization ("preview.example".data)
    ("myapp.preview.example:443".data) ("myapp".data) (by decide)).mpr
    (by refine ⟨by decide, by decide, by decide⟩)

/-! ## Token validation and access check
(src/utils/security.py, src/services/session_manager.py) -/

/-- `TOKEN_PREFIX` from `src/utils/security.py`. -/
def tokenPre : List Char := "spl_".data

/-- URL-safe base64 alphabet accepted after the token marker. -/
def validTokenChars : List Char :=
  "ABCDEFGHIJKLMNOPQRSTUVWXYZabcdefghijklmnopqrstuvwxyz0123456789-_".data

/-- `validate_access_token`: format-only validation — non-empty,
`spl_` start, at least 20 characters of body, URL-safe base64 body. -/
def validateAccessToken : Option String → Bool
  | none => false
  | some t =>
    if t.data.isEmpty then false
    else if !(tokenPre.isPrefixOf t.data) then false
    else if t.data.length < tokenPre.length + 20 then false
    else (t.data.drop tokenPre.length).all (fun c => c ∈ validTokenChars)

/-- `constant_time_compare`: `hmac.compare_digest` decides equality of
the two strings (its value, not its timing, is modelled). -/
def constantTimeCompare (a b : String) : Bool :=
  a = b

/-- `SessionManager.validate_access`: look up the record, compare the
token, require `ready` and ownership by this instance, and return the
port tracked by the process manager.  The record lookup result and the
tracked port are passed explicitly. -/
def validateAccess (sess : Option SessionRec) (token : String)
    (instanceId : String) (processPort : Option Nat) :
    Bool × Option SessionRec × Option Nat :=
  match sess with
  | none => (false, none, none)
  | some s =>
    if !constantTimeCompare s.access_token token then (false, none, none)
    else if s.status ≠ ready then (false, some s, none)
    else if s.container_instance ≠ some instanceId then (false, some s, none)
    else
      match processPort with
      | none => (false, some s, none)
      | some p => (true, some s, some p)

/-! ## Preview HTTP route (src/api/routes/preview.py, proxy_http) -/

/-- Responses the route can produce (cookie handling on the forwarded
response is orthogonal to the claim and not modelled). -/
inductive PreviewResponse where
  | unauthorized401
  | notFound404
  | errorPage502
  | gonePage410
  | loadingPage202 (st : SessionStatus)
  | retryPage202
  | unavailable503
  | forwarded (port : Nat)
deriving DecidableEq, Repr

/-- `proxy_http`: the decision path of the preview route.  `sess` is
the record-store lookup for the session id, `queryToken`/`cookieToken`
the two token sources, `processPort` the port tracked for this session
on this instance, and `recoverResult` the outcome of
`recover_session` (`some port` on success) for the one place the route
may invoke it. -/
def proxyHttpDispatch (v : Bool × Option SessionRec × Option Nat)
    (instanceId : String) (recoverResult : Option Nat) : PreviewResponse :=
  match v with
  | (_, none, _) => .notFound404
  | (isValid, some s, port) =>
    if s.status = failed then .errorPage502
    else if s.status = stopped then .gonePage410
    else if s.status ≠ ready then .loadingPage202 s.status
    else
      match isValid, port with
      | true, some p => .forwarded p
      | _, _ =>
        if s.container_instance ≠ some instanceId then
          match recoverResult with
          | some newPort => .forwarded newPort
          | none => .retryPage202
        else .unavailable503

/-- `proxy_http` (entry): resolve the effective token (query parameter
first, cookie as fallback, Python truthiness on the query value),
reject malformed tokens with 401, then dispatch on the
`validate_access` result. -/
def proxyHttp (sess : Option SessionRec) (queryToken cookieToken : Option String)
    (instanceId : String) (processPort : Option Nat)
    (recoverResult : Option Nat) : PreviewResponse :=
  let effectiveToken :=
    match queryToken with
    | none => cookieToken
    | some t => if t.data.isEmpty then cookieToken else some t
  if !validateAccessToken effectiveToken then .unauthorized401
  else
    match effectiveToken with
    | none => .unauthorized401
    | some tok =>
      proxyHttpDispatch (validateAccess sess tok instanceId processPort)
        instanceId recoverResult

/-! ## Claim C9 — preview route status mapping -/

/-- Concrete `failed` record for the refutation. -/
def recFailedSession : SessionRec :=
  { id := "s9", created_at := 0, updated_at := 0, last_activity_at := 0,
    expires_at := 1000, repo_owner := "alice", repo_name := "app",
    repo_ref := "main", status := failed,
    error_message := some "Clone failed",
    container_instance := some "inst-a",
    access_token := "spl_AAAAAAAAAAAAAAAAAAAA" }

/-- C9 (counterexample).  A request for a `failed` session carrying a
well-formed token that does not match the session's token yields 404
(`validate_access` hides the record when the token mismatches), not the
502 error page the claim assigns to failed sessions. -/
theorem proxyHttp_wrong_token_hides_failed :
    validateAccessToken (some "spl_BBBBBBBBBBBBBBBBBBBB") = true ∧
      recFailedSession.status = failed ∧
      recFailedSession.access_token ≠ "spl_BBBBBBBBBBBBBBBBBBBB" ∧
      proxyHttp (some recFailedSession) (some "spl_BBBBBBBBBBBBBBBBBBBB") none
        "inst-a" none none = .notFound404 ∧
      PreviewResponse.notFound404 ≠ .errorPage502 := by
  refine ⟨by decide, by decide, by decide, by decide, by decide⟩

/-- Reduction of the route entry for a well-formed query token. -/
theorem proxyHttp_query_token (sess : Option SessionRec)
    (cookieToken : Option String) (inst tok : String)
    (procPort recoverResult : Option Nat)
    (htok : validateAccessToken (some tok) = true) :
    proxyHttp sess (some tok) cookieToken inst procPort recoverResult =
      proxyHttpDispatch (validateAccess sess tok inst procPort)
        inst recoverResult := by
  have hne : tok.data.isEmpty = false := by
    cases h : tok.data.isEmpty
    · rfl
    · exfalso
      simp only [validateAccessToken, h, if_true] at htok
      cases htok
  simp [proxyHttp, hne, htok]

/-- C9 (amended).  For a preview HTTP request whose well-formed token
matches the session's access token: an unknown session yields 404; a
failed session yields 502 with the error page; a stopped session
yields 410; a session in pending, cloning, installing or starting
yields 202 with the loading page; and a ready session owned by another
instance triggers recovery — forwarded on success, 202 retry page on
failure.  With a well-formed token that does not match, the route
answers 404 whatever the status (the original claim fails there). -/
theorem proxyHttp_spec (inst tok : String) (cookieTok : Option String)
    (procPort recoverResult : Option Nat)
    (htok : validateAccessToken (some tok) = true) :
    (proxyHttp none (some tok) cookieTok inst procPort recoverResult =
      .notFound404) ∧
    (∀ s : SessionRec, s.access_token ≠ tok →
      proxyHttp (some s) (some tok) cookieTok inst procPort recoverResult =
        .notFound404) ∧
    (∀ s : SessionRec, s.access_token = tok →
      (s.status = failed →
        proxyHttp (some s) (some tok) cookieTok inst procPort recoverResult =
          .errorPage502) ∧
      (s.status = stopped →
        proxyHttp (some s) (some tok) cookieTok inst procPort recoverResult =
          .gonePage410) ∧
      (s.status = pending ∨ s.status = cloning ∨ s.status = installing ∨
          s.status = starting →
        proxyHttp (some s) (some tok) cookieTok inst procPort recoverResult =
          .loadingPage202 s.status) ∧
      (s.status = ready → s.container_instance ≠ some inst →
        (∀ p, recoverResult = some p →
          proxyHttp (some s) (some tok) cookieTok inst procPort recoverResult =
            .forwarded p) ∧
        (recoverResult = none →
          proxyHttp (some s) (some tok) cookieTok inst procPort recoverResult =
            .retryPage202))) := by
  refine ⟨?_, ?_, ?_⟩
  · rw [proxyHttp_query_token _ _ _ _ _ _ htok]
    simp [validateAccess, proxyHttpDispatch]
  · intro s hmis
    rw [proxyHttp_query_token _ _ _ _ _ _ htok]
    have hcmp : constantTimeCompare s.access_token tok = false := by
      unfold constantTimeCompare
      simpa using hmis
    simp [validateAccess, hcmp, proxyHttpDispatch]
  · intro s hmatch
    have hcmp : constantTimeCompare s.access_token tok = true := by
      unfold constantTimeCompare
      simpa using hmatch
    refine ⟨?_, ?_, ?_, ?_⟩
    · intro hst
      rw [proxyHttp_query_token _ _ _ _ _ _ htok]
      simp [validateAccess, hcmp, hst, proxyHttpDispatch]
    · intro hst
      rw [proxyHttp_query_token _ _ _ _ _ _ htok]
      simp [validateAccess, hcmp, hst, proxyHttpDispatch]
    · intro hst
      rw [proxyHttp_query_token _ _ _ _ _ _ htok]
      rcases hst with hst | hst | hst | hst <;>
        simp [validateAccess, hcmp, hst, proxyHttpDispatch]
    · intro hst hinst
      constructor
      · intro p hrec
        rw [proxyHttp_query_token _ _ _ _ _ _ htok]
        simp [validateAccess, hcmp, hst, hinst, hrec, proxyHttpDispatch]
      · intro hrec
        rw [proxyHttp_query_token _ _ _ _ _ _ htok]
        simp [validateAccess, hcmp, hst, hinst, hrec, proxyHttpDispatch]

/-- C9 (witness).  The amended route theorem instantiated at the
concrete failed session and its own (well-formed) token: the route
answers 502. -/
theorem proxyHttp_spec_witness :
    proxyHttp (some recFailedSession) (some "spl_AAAAAAAAAAAAAAAAAAAA") none
      "inst-a" none none = .errorPage502 :=
  ((proxyHttp_spec "inst-a" "spl_AAAAAAAAAAAAAAAAAAAA" none none none
    (by decide)).2.2 recFailedSession (by decide)).1 (by decide)

/-! ## HTML rewriting for path-based routing
(src/services/proxy.py, ProxyService._rewrite_html_for_proxy)

The two `re.sub` passes are embedded as left-to-right scanners with the
exact leftmost-match semantics of `re.sub`: at each position the
pattern is tried; on a match the replacement is emitted and scanning
resumes after the match; otherwise one character is copied.  The
scanners carry a fuel argument initialised to the input length (each
step consumes at least one character, so the fuel never runs out). -/

/-- Either HTML quote character (`["']` in the patterns). -/
def isQuote (c : Char) : Bool :=
  c = '"' || c = '\''

/-- Python regex `\s` on ASCII. -/
def isSpace (c : Char) : Bool :=
  c = ' ' || c = '\t' || c = '\n' || c = '\r' || c = '\x0b' || c = '\x0c'

/-- Case-insensitive literal match (`re.IGNORECASE` on an ASCII-letter
pattern written in lowercase): returns the matched original characters
and the rest. -/
def matchCI : List Char → List Char → Option (List Char × List Char)
  | [], s => some ([], s)
  | _ :: _, [] => none
  | p :: ps, c :: cs =>
    if c.toLower = p then
      (matchCI ps cs).map (fun mr => (c :: mr.1, mr.2))
    else none

/-- The five attribute names of the URL pattern, in the alternation
order of `((?:src|href|action|data|poster))`. -/
def attrNames : List (List Char) :=
  ["src".data, "href".data, "action".data, "data".data, "poster".data]

/-- One match of the pattern
`((?:src|href|action|data|poster))=(["\x27])(/(?!/)[^"\x27]*)`. -/
structure AttrMatch where
  attr : List Char
  quote : Char
  path : List Char
  rest : List Char
deriving DecidableEq, Repr

/-- Try the URL pattern with one fixed attribute name at the head of
`s`: the name (case-insensitively), `=`, a quote, `/` not followed by
`/`, then a greedy run of non-quote characters. -/
def parseAttrPath (m : List Char) (q : Char) : List Char → Option AttrMatch
  | sl :: rest3 =>
    if sl = '/' then
      if rest3.head? = some '/' then none
      else
        let body := rest3.takeWhile (fun c => !isQuote c)
        some ⟨m, q, '/' :: body, rest3.drop body.length⟩
    else none
  | [] => none

/-- Expect `=`, a quote, then the path part. -/
def parseAttrTail (m : List Char) : List Char → Option AttrMatch
  | c1 :: q :: rest2 =>
    if c1 = '=' && isQuote q then parseAttrPath m q rest2 else none
  | _ => none

/-- Body of `tryAttrWith` after the name matched. -/
def tryAttrWith (pat s : List Char) : Option AttrMatch :=
  (matchCI pat s).bind (fun mr => parseAttrTail mr.1 mr.2)

/-- Try the URL pattern at the head of `s`, alternatives in pattern
order. -/
def tryAttrAt (s : List Char) : Option AttrMatch :=
  match tryAttrWith ("src".data) s with
  | some m => some m
  | none =>
    match tryAttrWith ("href".data) s with
    | some m => some m
    | none =>
      match tryAttrWith ("action".data) s with
      | some m => some m
      | none =>
        match tryAttrWith ("data".data) s with
        | some m => some m
        | none => tryAttrWith ("poster".data) s

/-- `rewrite_url`: leave the match alone when the path already carries
`{preview_path_prefix}/`, else splice `base_path` in front of the path. -/
def rewriteAttrMatch (pfx basePath : List Char) (m : AttrMatch) :
    List Char :=
  if (pfx ++ ['/']).isPrefixOf m.path then
    m.attr ++ '=' :: m.quote :: m.path
  else
    m.attr ++ '=' :: m.quote :: (basePath ++ m.path)

/-- First `re.sub` pass (attribute URLs), as a fuelled scanner. -/
def rewriteAttrsGo (pfx basePath : List Char) :
    Nat → List Char → List Char
  | _, [] => []
  | 0, s => s
  | fuel + 1, c :: cs =>
    match tryAttrAt (c :: cs) with
    | some m =>
      rewriteAttrMatch pfx basePath m ++
        rewriteAttrsGo pfx basePath fuel m.rest
    | none => c :: rewriteAttrsGo pfx basePath fuel cs

/-- First `re.sub` pass over a whole document. -/
def rewriteAttrs (pfx basePath s : List Char) : List Char :=
  rewriteAttrsGo pfx basePath s.length s

/-- One match of the inner srcset pattern
`(/[^\s,]+)(\s+[^,]*)?`: the path, the optional descriptor text
(group 2, empty when absent), and the rest. -/
def trySrcsetUrlAt (s : List Char) :
    Option (List Char × List Char × List Char) :=
  match s with
  | '/' :: cs =>
    let body := cs.takeWhile (fun c => !isSpace c && c ≠ ',')
    if body.isEmpty then none
    else
      let after1 := cs.drop body.length
      let ws := after1.takeWhile isSpace
      if ws.isEmpty then some ('/' :: body, [], after1)
      else
        let after2 := after1.drop ws.length
        let tail := after2.takeWhile (fun c => c ≠ ',')
        some ('/' :: body, ws ++ tail, after2.drop tail.length)
  | _ => none

/-- `rewrite_srcset_url`: rewrite the slash-started run unless it
begins with `//` or already carries the preview path marker. -/
def rewriteSrcsetUrl (pfx basePath path g2 : List Char) : List Char :=
  if (['/']).isPrefixOf path && !((['/', '/']).isPrefixOf path) &&
      !((pfx ++ ['/']).isPrefixOf path) then
    basePath ++ path ++ g2
  else path ++ g2

/-- Inner `re.sub` over a srcset attribute value. -/
def rewriteSrcsetValueGo (pfx basePath : List Char) :
    Nat → List Char → List Char
  | _, [] => []
  | 0, s => s
  | fuel + 1, c :: cs =>
    match trySrcsetUrlAt (c :: cs) with
    | some (path, g2, rest) =>
      rewriteSrcsetUrl pfx basePath path g2 ++
        rewriteSrcsetValueGo pfx basePath fuel rest
    | none => c :: rewriteSrcsetValueGo pfx basePath fuel cs

/-- Inner `re.sub` over a whole srcset value. -/
def rewriteSrcsetValue (pfx basePath s : List Char) : List Char :=
  rewriteSrcsetValueGo pfx basePath s.length s

/-- One match of the outer pattern `srcset=(["\x27])([^"\x27]+)`
(IGNORECASE): the quote, the non-empty value, and the rest (which
still starts with the closing quote, not part of the match). -/
def trySrcsetAt (s : List Char) :
    Option (Char × List Char × List Char) :=
  match matchCI ("srcset".data) s with
  | none => none
  | some (_, rest1) =>
    match rest1 with
    | '=' :: q :: rest2 =>
      if isQuote q then
        let value := rest2.takeWhile (fun c => !isQuote c)
        if value.isEmpty then none
        else some (q, value, rest2.drop value.length)
      else none
    | _ => none

/-- Second `re.sub` pass (srcset values); the replacement spells
`srcset=` in lowercase as the Python f-string does. -/
def rewriteSrcsetsGo (pfx basePath : List Char) :
    Nat → List Char → List Char
  | _, [] => []
  | 0, s => s
  | fuel + 1, c :: cs =>
    match trySrcsetAt (c :: cs) with
    | some (q, value, rest) =>
      ("srcset".data) ++ '=' :: q :: rewriteSrcsetValue pfx basePath value ++
        rewriteSrcsetsGo pfx basePath fuel rest
    | none => c :: rewriteSrcsetsGo pfx basePath fuel cs

/-- Second `re.sub` pass over a whole document. -/
def rewriteSrcsets (pfx basePath s : List Char) : List Char :=
  rewriteSrcsetsGo pfx basePath s.length s

/-- `re.search(r"<base\s+[^>]*>", html, IGNORECASE)`: somewhere in the
document, `<base` followed by a whitespace character and a later
`>`. -/
def hasBaseTag : List Char → Bool
  | [] => false
  | c :: cs =>
    (match matchCI ("<base".data) (c :: cs) with
      | some (_, r) =>
        match r with
        | r0 :: rt => isSpace r0 && rt.contains '>'
        | [] => false
      | none => false) ||
      hasBaseTag cs

/-- `re.sub(r"(<tag[^>]*>)", r"\1" + inj, html, count=1)`: insert
`inj` after the first case-insensitive `<tag ...>` occurrence. -/
def injectAfterTag (pat inj : List Char) : List Char → List Char
  | [] => []
  | c :: cs =>
    match matchCI pat (c :: cs) with
    | some (m, rest) =>
      let nonGt := rest.takeWhile (fun ch => ch ≠ '>')
      match rest.drop nonGt.length with
      | '>' :: rest2 => m ++ nonGt ++ '>' :: (inj ++ rest2)
      | _ => c :: injectAfterTag pat inj cs
    | none => c :: injectAfterTag pat inj cs

/-- The `<base>` fallback injection of `_rewrite_html_for_proxy`:
skipped when a base tag exists; into `<head>` when the document
contains the literal `<head>` (lowercased); into a fresh head after
`<html ...>`; else prepended. -/
def injectBaseTag (basePath html : List Char) : List Char :=
  let baseTag := ("<base href=".data) ++ '"' :: (basePath ++ ['/']) ++
    ['"', '>']
  if hasBaseTag html then html
  else if strContains ("<head>".data) (html.map Char.toLower) then
    injectAfterTag ("<head".data) ('\n' :: ("    ".data) ++ baseTag) html
  else if strContains ("<html".data) (html.map Char.toLower) then
    injectAfterTag ("<html".data)
      ('\n' :: ("<head>".data) ++ '\n' :: ("    ".data) ++ baseTag ++
        '\n' :: ("</head>".data)) html
  else baseTag ++ '\n' :: html

/-- `ProxyService._rewrite_html_for_proxy`: attribute pass, srcset
pass, then base-tag injection.  `previewPathPrefix` is
`settings.preview_path_prefix` (default `/preview`). -/
def rewriteHtmlForProxy (previewPathPrefix sessionId html : List Char) :
    List Char :=
  let basePath := previewPathPrefix ++ '/' :: sessionId
  injectBaseTag basePath
    (rewriteSrcsets previewPathPrefix basePath
      (rewriteAttrs previewPathPrefix basePath html))

/-! ### Scanner lemmas -/

/-- `takeWhile` consumes exactly a run that satisfies the predicate up
to the first failing element. -/
theorem takeWhile_all_append (p : Char → Bool) (u : List Char) (v : Char)
    (w : List Char) (hu : ∀ c ∈ u, p c = true) (hv : p v = false) :
    (u ++ v :: w).takeWhile p = u := by
  induction u with
  | nil => simp [List.takeWhile_cons, hv]
  | cons a u' ih =>
    have ha : p a = true := hu a (List.mem_cons_self _ _)
    simp only [List.cons_append, List.takeWhile_cons, ha, if_true]
    rw [ih (fun c hc => hu c (List.mem_cons_of_mem _ hc))]

/-- A successful case-insensitive match splits the input. -/
theorem matchCI_eq_append (pat : List Char) :
    ∀ s m r, matchCI pat s = some (m, r) →
      s = m ++ r ∧ m.length = pat.length := by
  induction pat with
  | nil =>
    intro s m r h
    simp only [matchCI, Option.some.injEq, Prod.mk.injEq] at h
    obtain ⟨h1, h2⟩ := h
    subst h1
    subst h2
    exact ⟨rfl, rfl⟩
  | cons p ps ih =>
    intro s m r h
    cases s with
    | nil => simp [matchCI] at h
    | cons c cs =>
      simp only [matchCI] at h
      by_cases hc : c.toLower = p
      · rw [if_pos hc] at h
        cases hm : matchCI ps cs with
        | none => rw [hm] at h; cases h
        | some mr =>
          obtain ⟨m', r'⟩ := mr
          rw [hm] at h
          simp only [Option.map_some', Option.some.injEq, Prod.mk.injEq] at h
          obtain ⟨h1, h2⟩ := h
          subst h1
          subst h2
          obtain ⟨hs, hl⟩ := ih cs m' _ hm
          subst hs
          exact ⟨rfl, by simp [hl]⟩
      · rw [if_neg hc] at h
        cases h

/-- A lowercase pattern matches itself (case-sensitively spelt). -/
theorem matchCI_self (pat rest : List Char)
    (hpat : ∀ c ∈ pat, c.toLower = c) :
    matchCI pat (pat ++ rest) = some (pat, rest) := by
  induction pat with
  | nil => rfl
  | cons p ps ih =>
    have hp : p.toLower = p := hpat p (List.mem_cons_self _ _)
    show matchCI (p :: ps) (p :: (ps ++ rest)) = _
    simp only [matchCI, hp, if_true]
    rw [ih (fun c hc => hpat c (List.mem_cons_of_mem _ hc))]
    rfl

/-- A case-insensitive match fails when the heads differ. -/
theorem matchCI_head_ne (p : Char) (ps : List Char) (c : Char)
    (cs : List Char) (h : ¬ c.toLower = p) :
    matchCI (p :: ps) (c :: cs) = none := by
  simp [matchCI, h]

/-- `tryAttrWith` fails when the name does not match. -/
theorem tryAttrWith_none_of_none (pat s : List Char)
    (h : matchCI pat s = none) : tryAttrWith pat s = none := by
  unfold tryAttrWith
  rw [h]
  rfl

/-- A successful `parseAttrPath` consumes characters. -/
theorem parseAttrPath_rest_lt (m : List Char) (q : Char)
    (rest2 : List Char) (am : AttrMatch)
    (h : parseAttrPath m q rest2 = some am) :
    am.rest.length < rest2.length + 1 := by
  rcases rest2 with _ | ⟨sl, rest3⟩
  · exact Option.noConfusion h
  · simp only [parseAttrPath] at h
    by_cases hsl : sl = '/'
    · rw [if_pos hsl] at h
      by_cases hh : rest3.head? = some '/'
      · rw [if_pos hh] at h
        exact Option.noConfusion h
      · rw [if_neg hh] at h
        injection h with h'
        subst h'
        show (rest3.drop
          ((rest3.takeWhile (fun c => !isQuote c)).length)).length <
          (sl :: rest3).length + 1
        have hd : (rest3.drop
            ((rest3.takeWhile (fun c => !isQuote c)).length)).length ≤
            rest3.length := by
          rw [List.length_drop]
          omega
        simp only [List.length_cons]
        omega
    · rw [if_neg hsl] at h
      exact Option.noConfusion h

/-- A successful `parseAttrTail` consumes characters. -/
theorem parseAttrTail_rest_lt (m rest1 : List Char) (am : AttrMatch)
    (h : parseAttrTail m rest1 = some am) :
    am.rest.length < rest1.length := by
  rcases rest1 with _ | ⟨c1, _ | ⟨q, rest2⟩⟩
  · exact Option.noConfusion h
  · exact Option.noConfusion h
  · simp only [parseAttrTail] at h
    by_cases hcq : (c1 = '=' && isQuote q) = true
    · rw [if_pos hcq] at h
      have := parseAttrPath_rest_lt m q rest2 am h
      simp only [List.length_cons]
      omega
    · rw [if_neg hcq] at h
      exact Option.noConfusion h

/-- Any match of the attribute pattern consumes at least one input
character beyond its rest. -/
theorem tryAttrWith_rest_lt (pat s : List Char) (am : AttrMatch)
    (h : tryAttrWith pat s = some am) : am.rest.length < s.length := by
  unfold tryAttrWith at h
  cases hm : matchCI pat s with
  | none => rw [hm, Option.none_bind] at h; cases h
  | some mr =>
    obtain ⟨m, rest1⟩ := mr
    rw [hm] at h
    simp only [Option.some_bind] at h
    have hs := (matchCI_eq_append pat s m rest1 hm).1
    have hlt := parseAttrTail_rest_lt m rest1 am h
    have : s.length = m.length + rest1.length := by
      rw [hs, List.length_append]
    omega

/-- Any match of the alternation consumes input. -/
theorem tryAttrAt_rest_lt (s : List Char) (am : AttrMatch)
    (h : tryAttrAt s = some am) : am.rest.length < s.length := by
  unfold tryAttrAt at h
  cases h1 : tryAttrWith ("src".data) s with
  | some m =>
    rw [h1] at h
    injection h with h'
    subst h'
    exact tryAttrWith_rest_lt _ _ _ h1
  | none =>
    rw [h1] at h
    cases h2 : tryAttrWith ("href".data) s with
    | some m =>
      rw [h2] at h
      injection h with h'
      subst h'
      exact tryAttrWith_rest_lt _ _ _ h2
    | none =>
      rw [h2] at h
      cases h3 : tryAttrWith ("action".data) s with
      | some m =>
        rw [h3] at h
        injection h with h'
        subst h'
        exact tryAttrWith_rest_lt _ _ _ h3
      | none =>
        rw [h3] at h
        cases h4 : tryAttrWith ("data".data) s with
        | some m =>
          rw [h4] at h
          injection h with h'
          subst h'
          exact tryAttrWith_rest_lt _ _ _ h4
        | none =>
          rw [h4] at h
          exact tryAttrWith_rest_lt _ _ _ h

/-- The scanner ignores its fuel as long as there is enough of it. -/
theorem rewriteAttrsGo_nil (pfx bp : List Char) (fuel : Nat) :
    rewriteAttrsGo pfx bp fuel [] = [] := by
  cases fuel <;> rfl

/-- Fuel-invariance of the attribute-pass scanner. -/
theorem rewriteAttrsGo_fuel (pfx bp : List Char) :
    ∀ fuel₁ fuel₂ s, s.length ≤ fuel₁ → s.length ≤ fuel₂ →
      rewriteAttrsGo pfx bp fuel₁ s = rewriteAttrsGo pfx bp fuel₂ s := by
  intro fuel₁
  induction fuel₁ with
  | zero =>
    intro fuel₂ s h1 h2
    have hs : s = [] := by
      cases s with
      | nil => rfl
      | cons a t => simp at h1
    subst hs
    rw [rewriteAttrsGo_nil, rewriteAttrsGo_nil]
  | succ f ih =>
    intro fuel₂ s h1 h2
    cases s with
    | nil => rw [rewriteAttrsGo_nil, rewriteAttrsGo_nil]
    | cons c cs =>
      obtain ⟨g, rfl⟩ : ∃ g, fuel₂ = g + 1 := by
        cases fuel₂ with
        | zero => simp at h2
        | succ g => exact ⟨g, rfl⟩
      cases hm : tryAttrAt (c :: cs) with
      | some m =>
        have hlt := tryAttrAt_rest_lt _ _ hm
        simp only [List.length_cons] at hlt h1 h2
        simp only [rewriteAttrsGo, hm]
        rw [ih g m.rest (by omega) (by omega)]
      | none =>
        simp only [List.length_cons] at h1 h2
        simp only [rewriteAttrsGo, hm]
        rw [ih g cs (by omega) (by omega)]

/-- Step equation of the attribute pass: no match at the head. -/
theorem rewriteAttrs_cons_none (pfx bp : List Char) (c : Char)
    (cs : List Char) (h : tryAttrAt (c :: cs) = none) :
    rewriteAttrs pfx bp (c :: cs) = c :: rewriteAttrs pfx bp cs := by
  unfold rewriteAttrs
  simp only [List.length_cons, rewriteAttrsGo, h]

/-- Step equation of the attribute pass: a match at the head. -/
theorem rewriteAttrs_cons_some (pfx bp : List Char) (c : Char)
    (cs : List Char) (m : AttrMatch) (h : tryAttrAt (c :: cs) = some m) :
    rewriteAttrs pfx bp (c :: cs) =
      rewriteAttrMatch pfx bp m ++ rewriteAttrs pfx bp m.rest := by
  unfold rewriteAttrs
  simp only [List.length_cons, rewriteAttrsGo, h]
  have hlt := tryAttrAt_rest_lt _ _ h
  simp only [List.length_cons] at hlt
  rw [rewriteAttrsGo_fuel pfx bp cs.length m.rest.length m.rest (by omega)
    le_rfl]

/-- The attribute pass is the identity on the empty document. -/
theorem rewriteAttrs_nil (pfx bp : List Char) :
    rewriteAttrs pfx bp [] = [] := by
  unfold rewriteAttrs
  exact rewriteAttrsGo_nil _ _ _

/-- The alternation fails when the head character starts none of the
five names. -/
theorem tryAttrAt_none_of_head (c : Char) (cs : List Char)
    (h1 : ¬ c.toLower = 's') (h2 : ¬ c.toLower = 'h')
    (h3 : ¬ c.toLower = 'a') (h4 : ¬ c.toLower = 'd')
    (h5 : ¬ c.toLower = 'p') : tryAttrAt (c :: cs) = none := by
  have e1 : tryAttrWith ("src".data) (c :: cs) = none :=
    tryAttrWith_none_of_none _ _
      (show matchCI ('s' :: "rc".data) (c :: cs) = none from
        matchCI_head_ne _ _ _ _ h1)
  have e2 : tryAttrWith ("href".data) (c :: cs) = none :=
    tryAttrWith_none_of_none _ _
      (show matchCI ('h' :: "ref".data) (c :: cs) = none from
        matchCI_head_ne _ _ _ _ h2)
  have e3 : tryAttrWith ("action".data) (c :: cs) = none :=
    tryAttrWith_none_of_none _ _
      (show matchCI ('a' :: "ction".data) (c :: cs) = none from
        matchCI_head_ne _ _ _ _ h3)
  have e4 : tryAttrWith ("data".data) (c :: cs) = none :=
    tryAttrWith_none_of_none _ _
      (show matchCI ('d' :: "ata".data) (c :: cs) = none from
        matchCI_head_ne _ _ _ _ h4)
  have e5 : tryAttrWith ("poster".data) (c :: cs) = none :=
    tryAttrWith_none_of_none _ _
      (show matchCI ('p' :: "oster".data) (c :: cs) = none from
        matchCI_head_ne _ _ _ _ h5)
  simp only [tryAttrAt, e1, e2, e3, e4, e5]

/-- The alternation fails on `p` followed by a non-`o` character (the
`poster` branch dies at its second letter, the others at the first). -/
theorem tryAttrAt_p_space (rest : List Char) :
    tryAttrAt ('p' :: ' ' :: rest) = none := by
  have e5 : tryAttrWith ("poster".data) ('p' :: ' ' :: rest) = none := by
    apply tryAttrWith_none_of_none
    show matchCI ('p' :: 'o' :: "ster".data) ('p' :: ' ' :: rest) = none
    simp only [matchCI]
    rw [if_pos (by decide), if_neg (by decide)]
    rfl
  have e1 : tryAttrWith ("src".data) ('p' :: ' ' :: rest) = none :=
    tryAttrWith_none_of_none _ _
      (show matchCI ('s' :: "rc".data) _ = none from
        matchCI_head_ne _ _ _ _ (by decide))
  have e2 : tryAttrWith ("href".data) ('p' :: ' ' :: rest) = none :=
    tryAttrWith_none_of_none _ _
      (show matchCI ('h' :: "ref".data) _ = none from
        matchCI_head_ne _ _ _ _ (by decide))
  have e3 : tryAttrWith ("action".data) ('p' :: ' ' :: rest) = none :=
    tryAttrWith_none_of_none _ _
      (show matchCI ('a' :: "ction".data) _ = none from
        matchCI_head_ne _ _ _ _ (by decide))
  have e4 : tryAttrWith ("data".data) ('p' :: ' ' :: rest) = none :=
    tryAttrWith_none_of_none _ _
      (show matchCI ('d' :: "ata".data) _ = none from
        matchCI_head_ne _ _ _ _ (by decide))
  simp only [tryAttrAt, e1, e2, e3, e4, e5]

/-- A quote character is not a slash. -/
theorem quote_ne_slash (q : Char) (hq : isQuote q = true) : q ≠ '/' := by
  have h' : q = '"' ∨ q = '\'' := by simpa [isQuote] using hq
  rcases h' with rfl | rfl <;> decide

/-- The URL pattern at its intended hit: attribute name, `=`, quote,
root-relative value, closing quote. -/
theorem tryAttrWith_hit (pat u tail : List Char) (q q' : Char)
    (hpat : ∀ c ∈ pat, c.toLower = c)
    (hq : isQuote q = true) (hq' : isQuote q' = true)
    (hu : ∀ c ∈ u, isQuote c = false)
    (hhead : u.head? ≠ some '/') :
    tryAttrWith pat (pat ++ '=' :: q :: '/' :: (u ++ q' :: tail)) =
      some ⟨pat, q, '/' :: u, q' :: tail⟩ := by
  unfold tryAttrWith
  rw [matchCI_self pat _ hpat]
  simp only [Option.some_bind]
  simp only [parseAttrTail]
  rw [if_pos (by simp [hq])]
  simp only [parseAttrPath, if_true]
  have hhq : ¬ (u ++ q' :: tail).head? = some '/' := by
    cases u with
    | nil =>
      simp only [List.nil_append, List.head?_cons, Option.some.injEq]
      exact quote_ne_slash q' hq'
    | cons u0 u' =>
      simp only [List.cons_append, List.head?_cons, Option.some.injEq]
      intro hc
      exact hhead (by simp [hc])
  rw [if_neg hhq]
  have hbody : (u ++ q' :: tail).takeWhile (fun c => !isQuote c) = u :=
    takeWhile_all_append _ u q' tail (fun c hc => by simp [hu c hc])
      (by simp [hq'])
  rw [hbody, List.drop_left]

/-- Scanning the document `<p attr=q/u q>`: three no-match steps, the
hit, then the two trailing characters. -/
theorem rewriteAttrs_doc (pfxv bpv u prest : List Char) (q c0 : Char)
    (hhit : tryAttrAt ((c0 :: prest) ++ '=' :: q :: '/' :: (u ++ q :: ['>'])) =
      some ⟨c0 :: prest, q, '/' :: u, q :: ['>']⟩)
    (hnotpre : ((pfxv ++ ['/']).isPrefixOf ('/' :: u)) = false)
    (hq2 : tryAttrAt (q :: ['>']) = none)
    (h1 : tryAttrAt ('<' :: 'p' :: ' ' ::
      ((c0 :: prest) ++ '=' :: q :: '/' :: (u ++ q :: ['>']))) = none)
    (h2 : tryAttrAt ('p' :: ' ' ::
      ((c0 :: prest) ++ '=' :: q :: '/' :: (u ++ q :: ['>']))) = none)
    (h3 : tryAttrAt (' ' ::
      ((c0 :: prest) ++ '=' :: q :: '/' :: (u ++ q :: ['>']))) = none) :
    rewriteAttrs pfxv bpv
        (("<p ".data) ++ (c0 :: prest) ++ '=' :: q :: '/' :: (u ++ q :: ['>'])) =
      ("<p ".data) ++ (c0 :: prest) ++ '=' :: q :: (bpv ++ '/' :: u) ++
        q :: ['>'] := by
  show rewriteAttrs pfxv bpv ('<' :: 'p' :: ' ' ::
    ((c0 :: prest) ++ '=' :: q :: '/' :: (u ++ q :: ['>']))) = _
  rw [rewriteAttrs_cons_none _ _ _ _ h1]
  rw [rewriteAttrs_cons_none _ _ _ _ h2]
  rw [rewriteAttrs_cons_none _ _ _ _ h3]
  rw [List.cons_append]
  rw [rewriteAttrs_cons_some pfxv bpv c0
    (prest ++ '=' :: q :: '/' :: (u ++ q :: ['>']))
    ⟨c0 :: prest, q, '/' :: u, q :: ['>']⟩ hhit]
  simp only [rewriteAttrMatch]
  rw [if_neg (by simp [hnotpre])]
  rw [rewriteAttrs_cons_none _ _ _ _ hq2]
  rw [rewriteAttrs_cons_none _ _ '>' [] (by decide)]
  rw [rewriteAttrs_nil]
  simp

/-- C8 core (amended, attribute part).  For each of the five attribute
names, an attribute written `attr=<quote>/<url><quote>` whose value is
root-relative (single leading slash, not carrying `/preview/`) has its
value prefixed with `base_path` by the attribute pass. -/
theorem rewriteAttrs_root_relative (sid attr u : List Char) (q : Char)
    (hattr : attr ∈ attrNames)
    (hq : isQuote q = true)
    (hu : ∀ c ∈ u, isQuote c = false)
    (hhead : u.head? ≠ some '/')
    (hpre : ("preview/".data).isPrefixOf u = false) :
    rewriteAttrs ("/preview".data) ("/preview".data ++ '/' :: sid)
        (("<p ".data) ++ attr ++ '=' :: q :: '/' :: (u ++ q :: ['>'])) =
      ("<p ".data) ++ attr ++ '=' :: q ::
        (("/preview".data ++ '/' :: sid) ++ '/' :: u) ++ q :: ['>'] := by
  have hq5 : q.toLower ≠ 's' ∧ q.toLower ≠ 'h' ∧ q.toLower ≠ 'a' ∧
      q.toLower ≠ 'd' ∧ q.toLower ≠ 'p' := by
    have h' : q = '"' ∨ q = '\'' := by simpa [isQuote] using hq
    rcases h' with rfl | rfl <;> refine ⟨by decide, by decide, by decide,
      by decide, by decide⟩
  have hq2 : tryAttrAt (q :: ['>']) = none :=
    tryAttrAt_none_of_head q ['>'] hq5.1 hq5.2.1 hq5.2.2.1 hq5.2.2.2.1
      hq5.2.2.2.2
  have hnotpre : ((("/preview".data) ++ ['/']).isPrefixOf ('/' :: u)) =
      false := by
    show (('/' :: ("preview/".data)).isPrefixOf ('/' :: u)) = false
    simp [List.isPrefixOf, hpre]
  simp only [attrNames, List.mem_cons, List.mem_singleton,
    List.not_mem_nil, or_false] at hattr
  rcases hattr with rfl | rfl | rfl | rfl | rfl
  · refine rewriteAttrs_doc _ _ u ("rc".data) q 's' ?_ hnotpre hq2
      (tryAttrAt_none_of_head _ _ (by decide) (by decide) (by decide)
        (by decide) (by decide))
      (tryAttrAt_p_space _)
      (tryAttrAt_none_of_head _ _ (by decide) (by decide) (by decide)
        (by decide) (by decide))
    unfold tryAttrAt
    rw [tryAttrWith_hit ("src".data) u ['>'] q q (by decide) hq hq hu hhead]
  · have e1 : tryAttrWith ("src".data)
        (("href".data) ++ '=' :: q :: '/' :: (u ++ q :: ['>'])) = none :=
      tryAttrWith_none_of_none _ _
        (show matchCI ('s' :: "rc".data) ('h' :: _) = none from
          matchCI_head_ne _ _ _ _ (by decide))
    refine rewriteAttrs_doc _ _ u ("ref".data) q 'h' ?_ hnotpre hq2
      (tryAttrAt_none_of_head _ _ (by decide) (by decide) (by decide)
        (by decide) (by decide))
      (tryAttrAt_p_space _)
      (tryAttrAt_none_of_head _ _ (by decide) (by decide) (by decide)
        (by decide) (by decide))
    simp only [tryAttrAt, e1,
      tryAttrWith_hit ("href".data) u ['>'] q q (by decide) hq hq hu hhead]
  · have e1 : tryAttrWith ("src".data)
        (("action".data) ++ '=' :: q :: '/' :: (u ++ q :: ['>'])) = none :=
      tryAttrWith_none_of_none _ _
        (show matchCI ('s' :: "rc".data) ('a' :: _) = none from
          matchCI_head_ne _ _ _ _ (by decide))
    have e2 : tryAttrWith ("href".data)
        (("action".data) ++ '=' :: q :: '/' :: (u ++ q :: ['>'])) = none :=
      tryAttrWith_none_of_none _ _
        (show matchCI ('h' :: "ref".data) ('a' :: _) = none from
          matchCI_head_ne _ _ _ _ (by decide))
    refine rewriteAttrs_doc _ _ u ("ction".data) q 'a' ?_ hnotpre hq2
      (tryAttrAt_none_of_head _ _ (by decide) (by decide) (by decide)
        (by decide) (by decide))
      (tryAttrAt_p_space _)
      (tryAttrAt_none_of_head _ _ (by decide) (by decide) (by decide)
        (by decide) (by decide))
    simp only [tryAttrAt, e1, e2,
      tryAttrWith_hit ("action".data) u ['>'] q q (by decide) hq hq hu hhead]
  · have e1 : tryAttrWith ("src".data)
        (("data".data) ++ '=' :: q :: '/' :: (u ++ q :: ['>'])) = none :=
      tryAttrWith_none_of_none _ _
        (show matchCI ('s' :: "rc".data) ('d' :: _) = none from
          matchCI_head_ne _ _ _ _ (by decide))
    have e2 : tryAttrWith ("href".data)
        (("data".data) ++ '=' :: q :: '/' :: (u ++ q :: ['>'])) = none :=
      tryAttrWith_none_of_none _ _
        (show matchCI ('h' :: "ref".data) ('d' :: _) = none from
          matchCI_head_ne _ _ _ _ (by decide))
    have e3 : tryAttrWith ("action".data)
        (("data".data) ++ '=' :: q :: '/' :: (u ++ q :: ['>'])) = none :=
      tryAttrWith_none_of_none _ _
        (show matchCI ('a' :: "ction".data) ('d' :: _) = none from
          matchCI_head_ne _ _ _ _ (by decide))
    refine rewriteAttrs_doc _ _ u ("ata".data) q 'd' ?_ hnotpre hq2
      (tryAttrAt_none_of_head _ _ (by decide) (by decide) (by decide)
        (by decide) (by decide))
      (tryAttrAt_p_space _)
      (tryAttrAt_none_of_head _ _ (by decide) (by decide) (by decide)
        (by decide) (by decide))
    simp only [tryAttrAt, e1, e2, e3,
      tryAttrWith_hit ("data".data) u ['>'] q q (by decide) hq hq hu hhead]
  · have e1 : tryAttrWith ("src".data)
        (("poster".data) ++ '=' :: q :: '/' :: (u ++ q :: ['>'])) = none :=
      tryAttrWith_none_of_none _ _
        (show matchCI ('s' :: "rc".data) ('p' :: _) = none from
          matchCI_head_ne _ _ _ _ (by decide))
    have e2 : tryAttrWith ("href".data)
        (("poster".data) ++ '=' :: q :: '/' :: (u ++ q :: ['>'])) = none :=
      tryAttrWith_none_of_none _ _
        (show matchCI ('h' :: "ref".data) ('p' :: _) = none from
          matchCI_head_ne _ _ _ _ (by decide))
    have e3 : tryAttrWith ("action".data)
        (("poster".data) ++ '=' :: q :: '/' :: (u ++ q :: ['>'])) = none :=
      tryAttrWith_none_of_none _ _
        (show matchCI ('a' :: "ction".data) ('p' :: _) = none from
          matchCI_head_ne _ _ _ _ (by decide))
    have e4 : tryAttrWith ("data".data)
        (("poster".data) ++ '=' :: q :: '/' :: (u ++ q :: ['>'])) = none :=
      tryAttrWith_none_of_none _ _
        (show matchCI ('d' :: "ata".data) ('p' :: _) = none from
          matchCI_head_ne _ _ _ _ (by decide))
    refine rewriteAttrs_doc _ _ u ("oster".data) q 'p' ?_ hnotpre hq2
      (tryAttrAt_none_of_head _ _ (by decide) (by decide) (by decide)
        (by decide) (by decide))
      (tryAttrAt_p_space _)
      (tryAttrAt_none_of_head _ _ (by decide) (by decide) (by decide)
        (by decide) (by decide))
    simp only [tryAttrAt, e1, e2, e3, e4,
      tryAttrWith_hit ("poster".data) u ['>'] q q (by decide) hq hq hu hhead]

/-- `takeWhile` keeps a list all of whose elements satisfy the
predicate. -/
theorem takeWhile_all (p : Char → Bool) (u : List Char)
    (hu : ∀ c ∈ u, p c = true) : u.takeWhile p = u := by
  induction u with
  | nil => rfl
  | cons a t ih =>
    rw [List.takeWhile_cons, if_pos (hu a (List.mem_cons_self _ _))]
    rw [ih (fun c hc => hu c (List.mem_cons_of_mem _ hc))]

/-- The inner srcset scanner is the identity on the empty value. -/
theorem rewriteSrcsetValueGo_nil (pfx bp : List Char) (fuel : Nat) :
    rewriteSrcsetValueGo pfx bp fuel [] = [] := by
  cases fuel <;> rfl

/-- C8 core (amended, srcset part).  A whole-token root-relative URL in
a srcset value (no whitespace or comma inside, single leading slash,
not carrying the prefix) is prefixed with `base_path`. -/
theorem rewriteSrcsetValue_root (pfxv bpv u : List Char)
    (hne : u ≠ [])
    (hu : ∀ c ∈ u, isSpace c = false ∧ c ≠ ',')
    (hhead : u.head? ≠ some '/')
    (hpre : ((pfxv ++ ['/']).isPrefixOf ('/' :: u)) = false) :
    rewriteSrcsetValue pfxv bpv ('/' :: u) = bpv ++ '/' :: u := by
  have hbody : u.takeWhile (fun c => !isSpace c && c ≠ ',') = u :=
    takeWhile_all _ u (fun c hc => by simp [(hu c hc).1, (hu c hc).2])
  have hune : u.isEmpty = false := by
    cases u with
    | nil => exact absurd rfl hne
    | cons a t => rfl
  have htry : trySrcsetUrlAt ('/' :: u) = some ('/' :: u, [], []) := by
    simp only [trySrcsetUrlAt, hbody]
    rw [if_neg (by simp [hune])]
    rw [List.drop_length]
    simp
  unfold rewriteSrcsetValue
  simp only [List.length_cons, rewriteSrcsetValueGo, htry]
  have hslash2 : (['/']).isPrefixOf u = false := by
    cases u with
    | nil => rfl
    | cons u0 u' =>
      have hu0 : u0 ≠ '/' := by
        intro hc
        exact hhead (by simp [hc])
      simp only [List.isPrefixOf, Bool.and_eq_false_iff]
      exact Or.inl (by simp; exact fun h => hu0 h.symm)
  simp only [rewriteSrcsetUrl]
  rw [if_pos (by simp [List.isPrefixOf, hslash2, hpre])]
  simp

/-! ## Claim C8 — path-mode HTML rewriting -/

/-- C8 (counterexample).  In a `srcset` value the inner pattern
matches each maximal slash-started run, not each URL token: a token
that is a `data:` URL is corrupted — the preview prefix is spliced in
at its first slash — although the claim says URLs beginning with
`data:` are left unchanged. -/
theorem rewriteHtml_mangles_srcset_data_url :
    rewriteHtmlForProxy ("/preview".data) ("s1".data)
        (("<img srcset=\"data:image/png;base64,abc 1x\">").data) =
      (("<base href=\"/preview/s1/\">\n" ++
        "<img srcset=\"data:image/preview/s1/png;base64,abc 1x\">").data) ∧
      strContains (("data:image/png;base64,abc").data)
        (("<img srcset=\"data:image/png;base64,abc 1x\">").data) = true ∧
      strContains (("data:image/png;base64,abc").data)
        (rewriteHtmlForProxy ("/preview".data) ("s1".data)
          (("<img srcset=\"data:image/png;base64,abc 1x\">").data)) =
        false := by
  refine ⟨by decide, by decide, by decide⟩

set_option maxRecDepth 40000 in
/-- C8 (amended).  Path-mode HTML rewriting: (1) every root-relative
value of a `src`, `href`, `action`, `data` or `poster` attribute
written `attr=<quote>value<quote>` is prefixed with `/preview/<id>`;
(2) a whole root-relative URL token in a srcset value is prefixed the
same way; (3) attribute values beginning with `//`, `http:`, `https:`,
`data:`, or already carrying the prefix are left unchanged (the
pattern never matches them); (4) on a full document, root-relative
`src`/`srcset` URLs are prefixed and a `<base>` element is injected
into `<head>`; (5) a document that already has a `<base>` element gets
no second one; with no `<head>` and no `<html>` the base tag is
prepended. -/
theorem rewriteHtml_spec :
    (∀ sid attr u q, attr ∈ attrNames → isQuote q = true →
      (∀ c ∈ u, isQuote c = false) → u.head? ≠ some '/' →
      ("preview/".data).isPrefixOf u = false →
      rewriteAttrs ("/preview".data) ("/preview".data ++ '/' :: sid)
          (("<p ".data) ++ attr ++ '=' :: q :: '/' :: (u ++ q :: ['>'])) =
        ("<p ".data) ++ attr ++ '=' :: q ::
          (("/preview".data ++ '/' :: sid) ++ '/' :: u) ++ q :: ['>']) ∧
    (∀ sid u, u ≠ [] → (∀ c ∈ u, isSpace c = false ∧ c ≠ ',') →
      u.head? ≠ some '/' →
      (("/preview".data ++ ['/']).isPrefixOf ('/' :: u)) = false →
      rewriteSrcsetValue ("/preview".data) ("/preview".data ++ '/' :: sid)
          ('/' :: u) = ("/preview".data ++ '/' :: sid) ++ '/' :: u) ∧
    (rewriteHtmlForProxy ("/preview".data) ("s1".data)
        (("<p href=\"//cdn.example/lib.js\" src=\"https://cdn.example/a.js\"" ++
          " action=\"data:text/plain,hi\" data=\"http://x/y\"" ++
          " poster=\"/preview/other/x.png\">").data) =
      (("<base href=\"/preview/s1/\">\n" ++
        "<p href=\"//cdn.example/lib.js\" src=\"https://cdn.example/a.js\"" ++
        " action=\"data:text/plain,hi\" data=\"http://x/y\"" ++
        " poster=\"/preview/other/x.png\">").data)) ∧
    (rewriteHtmlForProxy ("/preview".data) ("s1".data)
        (("<html><head></head><body><img src=\"/a.png\"" ++
          " srcset=\"/img.png 1x, /img2.png 2x\"></body></html>").data) =
      (("<html><head>\n    <base href=\"/preview/s1/\"></head><body>" ++
        "<img src=\"/preview/s1/a.png\"" ++
        " srcset=\"/preview/s1/img.png 1x, /preview/s1/img2.png 2x\">" ++
        "</body></html>").data)) ∧
    (rewriteHtmlForProxy ("/preview".data) ("s1".data)
        (("<head><base href=\"/x/\"></head><img src=\"/a.png\">").data) =
      (("<head><base href=\"/preview/s1/x/\"></head>" ++
        "<img src=\"/preview/s1/a.png\">").data)) := by
  refine ⟨?_, ?_, by decide, by decide, by decide⟩
  · intro sid attr u q hattr hq hu hhead hpre
    exact rewriteAttrs_root_relative sid attr u q hattr hq hu hhead hpre
  · intro sid u hne hu hhead hpre
    exact rewriteSrcsetValue_root ("/preview".data)
      ("/preview".data ++ '/' :: sid) u hne hu hhead hpre

/-- C8 (witness).  The amended rewriting theorem instantiated at
session `s1`, attribute `src`, quote `"`, value `/assets/app.js`, and
the srcset token `/img.png`. -/
theorem rewriteHtml_spec_witness :
    rewriteAttrs ("/preview".data) ("/preview".data ++ '/' :: ("s1".data))
        (("<p ".data) ++ ("src".data) ++ '=' :: '"' :: '/' ::
          (("assets/app.js".data) ++ '"' :: ['>'])) =
      ("<p ".data) ++ ("src".data) ++ '=' :: '"' ::
        (("/preview".data ++ '/' :: ("s1".data)) ++ '/' ::
          ("assets/app.js".data)) ++ '"' :: ['>'] ∧
    rewriteSrcsetValue ("/preview".data)
        ("/preview".data ++ '/' :: ("s1".data)) ('/' :: ("img.png".data)) =
      ("/preview".data ++ '/' :: ("s1".data)) ++ '/' :: ("img.png".data) :=
  ⟨rewriteHtml_spec.1 ("s1".data) ("src".data) ("assets/app.js".data) '"'
      (by decide) (by decide) (by decide) (by decide) (by decide),
    rewriteHtml_spec.2.1 ("s1".data) ("img.png".data) (by decide)
      (by decide) (by decide) (by decide)⟩

/-! ## Repo fetcher and session setup
(src/services/github_client.py, src/services/session_manager.py,
src/config.py)

The clone path is mid-refactor in the source: the session manager
passes a per-session token to the fetcher, but the fetcher's functions
accept no such parameter and instead read a `github_pat` setting that
`config.py` does not declare.  The parameter lists, the call's keyword
arguments, and the declared settings fields are embedded verbatim so
the mismatch is checkable. -/

/-- Parameter names (after `self`) of `GitHubClient.clone_with_fallback`
(github_client.py, `async def clone_with_fallback(self, owner, name,
ref, target_dir, session_id=None)`). -/
def cloneWithFallbackParams : List String :=
  ["owner", "name", "ref", "target_dir", "session_id"]

/-- Parameter names (after `self`) of `GitHubClient.clone_repository`
(github_client.py, `async def clone_repository(self, owner, name, ref,
target_dir, session_id=None)`). -/
def cloneRepositoryParams : List String :=
  ["owner", "name", "ref", "target_dir", "session_id"]

/-- Keyword arguments of the clone call in
`SessionManager._setup_session` (session_manager.py: five positional
arguments plus `token=github_token`); the recovery path passes
`token=None` the same way. -/
def setupCloneCallKeywords : List String := ["token"]

/-- Python call semantics: a call raises `TypeError` unless every
keyword argument names a parameter of the callee. -/
def callAcceptsKeywords (params kwargs : List String) : Bool :=
  kwargs.all (fun k => params.contains k)

/-- Field names declared on `Settings` in config.py (its GitHub section
holds only a comment: per-session tokens, "No static PAT or App
credentials needed"). -/
def settingsFieldNames : List String :=
  ["port", "host", "environment", "debug", "k_revision", "instance_id",
   "cloud_run_webcontainer_secret", "supabase_url", "supabase_secret_key",
   "workspace_base_dir", "session_idle_timeout", "session_max_lifetime",
   "session_startup_timeout", "port_range_start", "port_range_end",
   "max_concurrent_sessions", "max_log_size_bytes", "base_url",
   "preview_path_prefix", "preview_domain", "use_subdomain_routing",
   "google_cloud_project", "enable_cloud_logging"]

/-- Attribute access on the settings model is defined only for declared
fields; pydantic raises `AttributeError` otherwise. -/
def settingsHasAttr (attr : String) : Bool :=
  settingsFieldNames.contains attr

/-- Observable effects of the setup task on the record store. -/
inductive SetupEvent where
  | statusWrite (st : SessionStatus) (err : Option String)
  | portWrite (p : Nat)
deriving DecidableEq, Repr

/-- The clone call in `_setup_session` raises `TypeError` before the
fetcher runs iff it passes a keyword the callee does not accept. -/
def setupCloneCallRaises : Bool :=
  !callAcceptsKeywords cloneWithFallbackParams setupCloneCallKeywords

/-- Record-store writes of `SessionManager._setup_session`, with the
outcomes of the external phases (clone, install, port allocation,
readiness) passed as parameters: each status is written before the
phase's work begins; any raised exception is caught and written as
`failed` with the exception text by `_fail_session`. -/
def setupSessionEvents (cloneOk installOk : Bool) (startPort : Option Nat)
    (serverReady : Bool) : List SetupEvent :=
  SetupEvent.statusWrite cloning none ::
    (if setupCloneCallRaises then
      [SetupEvent.statusWrite failed
        (some "clone_with_fallback() got an unexpected keyword argument 'token'")]
    else if !cloneOk then
      [SetupEvent.statusWrite failed (some "Clone failed")]
    else
      SetupEvent.statusWrite installing none ::
        (if !installOk then
          [SetupEvent.statusWrite failed
            (some "Failed to install dependencies")]
        else
          SetupEvent.statusWrite starting none ::
            (match startPort with
            | none =>
              [SetupEvent.statusWrite failed
                (some "No available ports for dev server")]
            | some p =>
              SetupEvent.portWrite p ::
                (if serverReady then [SetupEvent.statusWrite ready none]
                else
                  [SetupEvent.statusWrite failed
                    (some "Server failed to start within timeout")]))))

/-- The statuses written, in order. -/
def statusWrites (evs : List SetupEvent) : List SessionStatus :=
  evs.filterMap (fun e =>
    match e with
    | .statusWrite st _ => some st
    | .portWrite _ => none)

/-! ## Claim C1 — setup status sequence -/

/-- C1 (code bug).  The setup task writes `cloning` and then always
fails: its clone call passes the keyword argument `token`, which
`clone_with_fallback` does not accept, so the call raises `TypeError`
before any clone work happens and `_fail_session` records `failed`.
Whatever the would-be outcomes of clone, install and start, the store
never sees `installing`, `starting` or `ready`. -/
theorem setupSession_never_ready :
    callAcceptsKeywords cloneWithFallbackParams setupCloneCallKeywords =
      false ∧
    ∀ cloneOk installOk startPort serverReady,
      statusWrites
          (setupSessionEvents cloneOk installOk startPort serverReady) =
        [cloning, failed] := by
  refine ⟨by decide, ?_⟩
  intro cloneOk installOk startPort serverReady
  rfl

/-! ## Claim C2 — clone token embedding and redaction -/

/-- C2 (code bug).  No token can reach the clone: neither
`clone_with_fallback` nor `clone_repository` has a `token` parameter
(the session manager's `token=` keyword raises `TypeError`), and the
token source the fetcher does consult, `settings.github_pat`, is not a
declared settings field (reading it raises `AttributeError`), so no
supplied token is ever embedded in the clone URL or redacted from
error output. -/
theorem cloneTokenMechanism_unimplemented :
    callAcceptsKeywords cloneWithFallbackParams setupCloneCallKeywords =
      false ∧
      cloneWithFallbackParams.contains "token" = false ∧
      cloneRepositoryParams.contains "token" = false ∧
      settingsHasAttr "github_pat" = false := by
  refine ⟨by decide, by decide, by decide, by decide⟩

end Splicer
